import Mathlib

/-!
Shallow embedding of the giantswarm/frontmatter-validator core:
the check catalog (`pkg/validator/checks.go`), the validation engine
(`pkg/validator/validator.go`, config-manager version), and the
configuration resolver (`pkg/config/manager.go`).

Go strings are modelled as `List Char` (`Str`); Go byte lengths are
modelled as character counts, which agrees with the source on ASCII
input.  Go `time.Time` values are modelled as integer nanoseconds since
an arbitrary epoch: `Time.After` is `<` on those integers and
`Time.Sub` clamps to the `int64` range exactly as Go's
`time.Time.Sub` does.  YAML decoding (`yaml.Unmarshal`) is not part of
this repository; it enters the model as an oracle argument
(`YamlFM` / `YamlKeys`), while the frontmatter-boundary search
(the `(?m)^---\n` regex) and every validation rule are embedded
concretely.
-/

namespace FMV

abbrev Str := List Char

/-- Models `strings.HasPrefix s p`. -/
def goHasPre (s p : Str) : Bool := p.isPrefixOf s

/-- Models `strings.HasSuffix s p`. -/
def goHasSuf (s p : Str) : Bool := p.isSuffixOf s

/-- Models `strings.TrimPrefix s p` (removes at most one leading copy of `p`). -/
def trimPre (s p : Str) : Str := if p.isPrefixOf s then s.drop p.length else s

/-- Models `strings.TrimSuffix s p` (removes at most one trailing copy of `p`). -/
def trimSuf (s p : Str) : Str := if p.isSuffixOf s then s.take (s.length - p.length) else s

/-- Models `unicode.IsSpace` on the characters Go treats as white space. -/
def goIsSpace (c : Char) : Bool :=
  c == ' ' || c == '\t' || c == '\n' || c == '\r' ||
  c == Char.ofNat 11 || c == Char.ofNat 12 || c == Char.ofNat 0x85 || c == Char.ofNat 0xA0

/-- Models `strings.TrimSpace`. -/
def trimSpace (s : Str) : Str :=
  ((s.dropWhile goIsSpace).reverse.dropWhile goIsSpace).reverse

/-- Models `strings.Count content "\n"`. -/
def countNewlines (s : Str) : Nat := s.count '\n'

/-- Decimal rendering of a natural number, for the `fmt.Sprintf("%d", i)` holes. -/
def natToStr (n : Nat) : Str := Nat.toDigits 10 n

/-- Recursion core of `replaceAll`; the fuel bounds the remaining length, so
any fuel ≥ `s.length` gives the scan's fixed point (each step consumes at
least one character). -/
def replaceAllGo : Nat → Str → Str → Str → Str
  | 0, s, _, _ => s
  | _ + 1, [], _, _ => []
  | fuel + 1, c :: rest, old, new =>
    if old ≠ [] ∧ old.isPrefixOf (c :: rest) then
      new ++ replaceAllGo fuel ((c :: rest).drop old.length) old new
    else
      c :: replaceAllGo fuel rest old new

/-- Models `strings.ReplaceAll s old new` (left-to-right, non-overlapping). -/
def replaceAll (s old new : Str) : Str := replaceAllGo s.length s old new

/-- `true` on the characters matched by the regex class `[A-Z_]`. -/
def isVarChar (c : Char) : Bool := ('A' ≤ c && c ≤ 'Z') || c == '_'

/-- Splits off the maximal leading run of `[A-Z_]` characters. -/
def takeVarRun : Str → Str × Str
  | [] => ([], [])
  | c :: rest =>
    if isVarChar c then
      let p := takeVarRun rest
      (c :: p.1, p.2)
    else ([], c :: rest)

/-- Recursion core of `extractVariables`; the fuel bounds the remaining
length (`takeVarRun` never lengthens its remainder), so any fuel ≥
`s.length` gives the scan's fixed point. -/
def extractVariablesGo : Nat → Str → List Str
  | 0, _ => []
  | _ + 1, [] => []
  | fuel + 1, c :: rest =>
    if c = '$' then
      match takeVarRun rest with
      | ([], _) => extractVariablesGo fuel rest
      | (a :: run, tail) => (a :: run) :: extractVariablesGo fuel tail
    else extractVariablesGo fuel rest

/-- Models `regexp.MustCompile("\$([A-Z_]+)").FindAllStringSubmatch(link, -1)`:
the captured groups, i.e. each maximal nonempty `[A-Z_]+` run directly after
a `$`. -/
def extractVariables (s : Str) : List Str := extractVariablesGo s.length s

/-- Positions at which the multiline regex `^---\n` matches: the scan keeps a
flag telling whether the current position is a line start. -/
def delimScan : Str → Nat → Bool → List Nat
  | [], _, _ => []
  | c :: rest, i, atStart =>
    let tail := delimScan rest (i + 1) (c = '\n')
    if atStart && (['-', '-', '-', '\n'].isPrefixOf (c :: rest)) then i :: tail else tail

/-- All match positions of `(?m)^---\n` in the content. -/
def delimPositions (content : Str) : List Nat := delimScan content 0 true

/-! ## Check identifiers (`pkg/validator/checks.go`, constant block) -/

def InvalidDescription : String := "INVALID_DESCRIPTION"
def InvalidLastReviewDate : String := "INVALID_LAST_REVIEW_DATE"
def InvalidOwner : String := "INVALID_OWNER"
def LongDescription : String := "LONG_DESCRIPTION"
def NoFullStopDescription : String := "NO_FULL_STOP_DESCRIPTION"
def LongLinkTitle : String := "LONG_LINK_TITLE"
def LongTitle : String := "LONG_TITLE"
def LongUserQuestion : String := "LONG_USER_QUESTION"
def NoDescription : String := "NO_DESCRIPTION"
def NoFrontMatter : String := "NO_FRONT_MATTER"
def NoLastReviewDate : String := "NO_LAST_REVIEW_DATE"
def NoLinkTitle : String := "NO_LINK_TITLE"
def NoOwner : String := "NO_OWNER"
def NoQuestionMark : String := "NO_QUESTION_MARK"
def NoTitle : String := "NO_TITLE"
def NoTrailingNewline : String := "NO_TRAILING_NEWLINE"
def NoUserQuestions : String := "NO_USER_QUESTIONS"
def NoWeight : String := "NO_WEIGHT"
def ReviewTooLongAgo : String := "REVIEW_TOO_LONG_AGO"
def ShortDescription : String := "SHORT_DESCRIPTION"
def ShortTitle : String := "SHORT_TITLE"
def UnknownAttribute : String := "UNKNOWN_ATTRIBUTE"
def RunbookLayoutNotSet : String := "RUNBOOK_LAYOUT_NOT_SET"
def InvalidRunbookVariables : String := "INVALID_RUNBOOK_VARIABLES"
def RunbookVariableWithoutName : String := "RUNBOOK_VARIABLE_WITHOUT_NAME"
def InvalidRunbookVariableName : String := "INVALID_RUNBOOK_VARIABLE_NAME"
def InvalidRunbookVariable : String := "INVALID_RUNBOOK_VARIABLE"
def InvalidRunbookDashboards : String := "INVALID_RUNBOOK_DASHBOARDS"
def InvalidRunbookDashboard : String := "INVALID_RUNBOOK_DASHBOARD"
def InvalidRunbookDashboardLink : String := "INVALID_RUNBOOK_DASHBOARD_LINK"
def InvalidRunbookKnownIssues : String := "INVALID_RUNBOOK_KNOWN_ISSUES"
def InvalidRunbookKnownIssue : String := "INVALID_RUNBOOK_KNOWN_ISSUE"
def InvalidRunbookKnownIssueURL : String := "INVALID_RUNBOOK_KNOWN_ISSUE_URL"
def RunbookAppearsInMenu : String := "RUNBOOK_APPEARS_IN_MENU"

def SeverityFail : String := "FAIL"
def SeverityWarn : String := "WARN"

/-! ## Data model (`pkg/validator/checks.go` types, current version) -/

/-- A catalog entry (Go `Check`). -/
structure Check where
  id : String
  description : String
  severity : String
  hasValue : Bool := false
deriving DecidableEq, Repr

/-- The `interface{}` / `[]string` value attached to a finding.  `.date d`
stands for the Go side's `t.Format("2006-01-02")` rendering of the time `d`
(modelled as nanoseconds); the formatter is injective on days, which is all
any property here needs. -/
inductive FMValue where
  | none
  | str (s : Str)
  | strList (l : List Str)
  | date (d : Int)
deriving DecidableEq, Repr

/-- Go `CheckResult`. -/
structure CheckResult where
  check : String
  value : FMValue := .none
  line : Nat := 0
  endLine : Nat := 0
  title : Str := []
  owner : List Str := []
deriving DecidableEq, Repr

/-- Go `ValidationResult`. -/
structure ValidationResult where
  numFrontMatterLines : Nat
  checks : List CheckResult
deriving DecidableEq, Repr

structure RunbookVariable where
  name : Str := []
  description : Str := []
  default : Str := []
deriving DecidableEq, Repr

structure RunbookDashboard where
  name : Str := []
  link : Str := []
deriving DecidableEq, Repr

structure RunbookKnownIssue where
  url : Str := []
  description : Str := []
deriving DecidableEq, Repr

/-- Go `Runbook`.  The field `vars` models Go's `Variables` (that name is a
keyword in Lean). -/
structure Runbook where
  vars : List RunbookVariable := []
  dashboards : List RunbookDashboard := []
  knownIssues : List RunbookKnownIssue := []
deriving DecidableEq, Repr

/-- Go `FrontMatter`.  `lastReviewDate` is the parsed `FlexibleDate`, modelled
as nanoseconds since an arbitrary epoch; `menu`, `changesEntry`, `crd` and
`search` are `interface{}` fields whose only observable property in the
validator is nil-ness, so they are modelled as `Option Unit`. -/
structure FrontMatter where
  title : Str := []
  description : Str := []
  linkTitle : Str := []
  owner : List Str := []
  lastReviewDate : Option Int := none
  userQuestions : List Str := []
  weight : Option Int := none
  menu : Option Unit := none
  expirationInDays : Option Int := none
  date : Str := []
  aliases : List Str := []
  changesCategories : List Str := []
  changesEntry : Option Unit := none
  crd : Option Unit := none
  layout : Str := []
  mermaid : Bool := false
  search : Option Unit := none
  sourceRepository : Str := []
  sourceRepositoryRef : Str := []
  technicalName : Str := []
  tocHide : Bool := false
  runbook : Option Runbook := none
deriving DecidableEq, Repr

/-- `GetChecks` from `pkg/validator/checks.go` (current catalog, 34 entries). -/
def GetChecks : List Check := [
  { id := NoFrontMatter, description := "No front matter found in the beginning of the page",
    severity := SeverityFail },
  { id := NoTrailingNewline,
    description := "There must be a newline character at the end of the page to ensure proper parsing",
    severity := SeverityFail },
  { id := UnknownAttribute,
    description := "There is an unknown front matter attribute in this page",
    severity := SeverityFail, hasValue := true },
  { id := NoTitle, description := "The page should have a title", severity := SeverityFail },
  { id := LongTitle, description := "The title should be less than 100 characters",
    severity := SeverityFail, hasValue := true },
  { id := ShortTitle, description := "The title should be longer than 5 characters",
    severity := SeverityFail, hasValue := true },
  { id := NoDescription, description := "Each page should have a description",
    severity := SeverityFail },
  { id := LongDescription, description := "The description should be less than 300 characters",
    severity := SeverityFail, hasValue := true },
  { id := NoFullStopDescription, description := "The description should end with a full stop",
    severity := SeverityFail, hasValue := true },
  { id := ShortDescription, description := "The description should be longer than 50 characters",
    severity := SeverityFail, hasValue := true },
  { id := InvalidDescription,
    description := "Description must be a simple string without any markup or line breaks",
    severity := SeverityFail },
  { id := NoLinkTitle,
    description := "The page should have a linkTitle, which appears in menus and list pages. If not given, title will be used and should be no longer than 40 characters.",
    severity := SeverityWarn },
  { id := LongLinkTitle,
    description := "The linkTitle (used in menu and list pages; title is used if linkTitle is not given) should be less than 40 characters",
    severity := SeverityFail },
  { id := NoWeight,
    description := "The page should have a weight attribute, to control the sort order",
    severity := SeverityWarn },
  { id := NoOwner, description := "The page should have an owner assigned",
    severity := SeverityFail },
  { id := InvalidOwner, description := "The owner field values must start with a Github teams URL",
    severity := SeverityFail, hasValue := true },
  { id := NoLastReviewDate, description := "The page should have a last_review_date",
    severity := SeverityWarn },
  { id := ReviewTooLongAgo, description := "The last review date is too long ago",
    severity := SeverityWarn, hasValue := true },
  { id := InvalidLastReviewDate,
    description := "The last_review_date should be in format YYYY-MM-DD and not in the future",
    severity := SeverityFail, hasValue := true },
  { id := NoUserQuestions, description := "The page should have user_questions assigned",
    severity := SeverityFail },
  { id := LongUserQuestion,
    description := "Each user question should be no longer than 100 characters",
    severity := SeverityFail, hasValue := true },
  { id := NoQuestionMark, description := "Questions should end with a question mark",
    severity := SeverityFail, hasValue := true },
  { id := RunbookLayoutNotSet, description := "Runbook pages must have layout: runbook",
    severity := SeverityFail },
  { id := InvalidRunbookVariables,
    description := "Runbook variables must be an array and not empty",
    severity := SeverityFail },
  { id := RunbookVariableWithoutName,
    description := "Each runbook variable must have a name specified",
    severity := SeverityFail, hasValue := true },
  { id := InvalidRunbookVariableName,
    description := "Variable names must use only uppercase letters and underscores, and be unique",
    severity := SeverityFail, hasValue := true },
  { id := InvalidRunbookVariable,
    description := "Each variable must be a valid object with name field and optional description and default fields",
    severity := SeverityFail, hasValue := true },
  { id := InvalidRunbookDashboards,
    description := "Runbook dashboards must be an array and not empty",
    severity := SeverityFail },
  { id := InvalidRunbookDashboard,
    description := "Each runbook dashboard must have name and link specified and non-empty",
    severity := SeverityFail, hasValue := true },
  { id := InvalidRunbookDashboardLink,
    description := "Dashboard link must be a valid URL with properly defined variables",
    severity := SeverityFail, hasValue := true },
  { id := InvalidRunbookKnownIssues,
    description := "Runbook known issues must be an array and not empty",
    severity := SeverityFail },
  { id := InvalidRunbookKnownIssue,
    description := "Each known issue must have url defined and may have optional description field",
    severity := SeverityFail, hasValue := true },
  { id := InvalidRunbookKnownIssueURL, description := "Known issue URL must be a valid URL",
    severity := SeverityFail, hasValue := true },
  { id := RunbookAppearsInMenu,
    description := "Runbook pages must have toc_hide: true to prevent appearing in menus",
    severity := SeverityFail }
]

/-- The identifiers of the catalog, in catalog order. -/
def checkCatalogIDs : List String := GetChecks.map (fun c => c.id)

/-- `GetValidKeys` from `pkg/validator/checks.go`: the recognized frontmatter
keys (the Go map is modelled by this list's membership). -/
def GetValidKeys : List Str :=
  ["aliases".data, "changes_categories".data, "changes_entry".data, "classification".data,
   "crd".data, "date".data, "description".data, "expiration_in_days".data,
   "last_review_date".data, "layout".data, "linkTitle".data, "menu".data, "mermaid".data,
   "owner".data, "runbook".data, "search".data, "source_repository".data,
   "source_repository_ref".data, "technical_name".data, "title".data, "toc_hide".data,
   "user_questions".data, "weight".data]

/-! ## Configuration resolver (`pkg/config/manager.go`) -/

/-- Go `RuleSet`. -/
structure RuleSet where
  enabledChecks : List String := []
  disabledChecks : List String := []
deriving DecidableEq, Repr

/-- Go `DirectoryOverride`. -/
structure DirectoryOverride where
  path : Str := []
  enabledChecks : List String := []
  disabledChecks : List String := []
deriving DecidableEq, Repr

/-- Go `Config`. -/
structure Config where
  defaultRules : RuleSet := {}
  directoryOverrides : List DirectoryOverride := []
deriving DecidableEq, Repr

/-- `Manager.pathMatches` from `pkg/config/manager.go`. -/
def pathMatches (filePath pattern : Str) : Bool :=
  let fp := trimPre filePath "./".data
  let pat := trimPre pattern "./".data
  if goHasSuf pat "/**".data then
    let pre := trimSuf pat "/**".data
    goHasPre fp (pre ++ "/".data) || fp == pre
  else if goHasSuf pat "/*".data then
    let pre := trimSuf pat "/*".data
    let relativePath := trimPre fp (pre ++ "/".data)
    goHasPre fp (pre ++ "/".data) && !(relativePath.contains '/')
  else
    fp == pat

/-- The Go `map[string]bool` named `enabled` in `GetEnabledChecksForPath`,
modelled as its lookup function. -/
abbrev CheckMap := String → Option Bool

def emptyCheckMap : CheckMap := fun _ => none

def setCheck (m : CheckMap) (k : String) (b : Bool) : CheckMap :=
  fun c => if c = k then some b else m c

/-- `Manager.GetEnabledChecksForPath`: the three update stages, in program
order.  The Go function then returns the keys mapped to `true` as a slice
whose order is unspecified (map iteration); the resulting set is
`resolveActive`. -/
def resolveCheckMap (cfg : Config) (filePath : Str) : CheckMap :=
  let m1 := cfg.defaultRules.enabledChecks.foldl (fun m c => setCheck m c true) emptyCheckMap
  let m2 := cfg.defaultRules.disabledChecks.foldl (fun m c => setCheck m c false) m1
  cfg.directoryOverrides.foldl
    (fun m o =>
      if pathMatches filePath o.path then
        let me := o.enabledChecks.foldl (fun m c => setCheck m c true) m
        o.disabledChecks.foldl (fun m c => setCheck m c false) me
      else m)
    m2

/-- Membership in the slice returned by `GetEnabledChecksForPath`. -/
def resolveActive (cfg : Config) (filePath : Str) (check : String) : Bool :=
  resolveCheckMap cfg filePath check == some true

/-- `Manager.getDefaultConfig` from `pkg/config/manager.go`, verbatim. -/
def getDefaultConfig : Config :=
  { defaultRules :=
      { enabledChecks :=
          ["NO_FRONT_MATTER", "NO_TRAILING_NEWLINE", "UNKNOWN_ATTRIBUTE", "NO_TITLE",
           "LONG_TITLE", "SHORT_TITLE", "NO_DESCRIPTION", "LONG_DESCRIPTION",
           "SHORT_DESCRIPTION", "NO_FULL_STOP_DESCRIPTION", "INVALID_DESCRIPTION",
           "NO_LINK_TITLE", "LONG_LINK_TITLE", "NO_WEIGHT", "NO_OWNER", "INVALID_OWNER",
           "NO_LAST_REVIEW_DATE", "REVIEW_TOO_LONG_AGO", "INVALID_LAST_REVIEW_DATE",
           "NO_USER_QUESTIONS", "LONG_USER_QUESTION", "NO_QUESTION_MARK"] },
    directoryOverrides :=
      [ { path := "src/content/reference/platform-api/crd/**".data,
          disabledChecks :=
            ["NO_DESCRIPTION", "LONG_DESCRIPTION", "SHORT_DESCRIPTION",
             "NO_FULL_STOP_DESCRIPTION", "INVALID_DESCRIPTION", "NO_LINK_TITLE", "NO_OWNER",
             "NO_USER_QUESTIONS"] },
        { path := "src/content/vintage/use-the-api/management-api/crd/**".data,
          disabledChecks :=
            ["NO_DESCRIPTION", "LONG_DESCRIPTION", "SHORT_DESCRIPTION",
             "NO_FULL_STOP_DESCRIPTION", "INVALID_DESCRIPTION", "NO_LINK_TITLE", "NO_OWNER",
             "NO_USER_QUESTIONS"] },
        { path := "src/content/changes/**".data,
          disabledChecks :=
            ["NO_DESCRIPTION", "SHORT_DESCRIPTION", "NO_FULL_STOP_DESCRIPTION",
             "NO_LINK_TITLE", "LONG_LINK_TITLE", "NO_OWNER", "NO_USER_QUESTIONS"] },
        { path := "src/content/vintage/**".data,
          disabledChecks := ["NO_LAST_REVIEW_DATE", "REVIEW_TOO_LONG_AGO"] },
        { path := "src/content/reference/platform-api/cluster-apps/**".data,
          disabledChecks := ["NO_LAST_REVIEW_DATE", "REVIEW_TOO_LONG_AGO"] },
        { path := "src/content/meta/**".data,
          disabledChecks := ["NO_LAST_REVIEW_DATE"] } ] }

/-- The filesystem outcome `Manager.loadConfig` observes at the configured
location. -/
inductive ConfigFile where
  | absent
  | present (parsed : Option Config)

/-- `Manager.loadConfig`: a missing file falls back to `getDefaultConfig`; a
present but unparsable file is an error (`none`); otherwise the parsed
configuration is used. -/
def loadConfig : ConfigFile → Option Config
  | .absent => some getDefaultConfig
  | .present Option.none => none
  | .present (some cfg) => some cfg

/-! ## Validation engine (`pkg/validator/validator.go`, config-manager version)

Int64 time arithmetic: `validateLastReviewDate` compares
`today.Sub(date) > time.Duration(expiration)*24*time.Hour`.  `time.Time.Sub`
clamps to the `int64` duration range; the Go multiplications wrap modulo
2^64 (two's complement). -/

def int64Max : Int := 9223372036854775807
def int64Min : Int := -9223372036854775808

/-- Two's-complement wraparound of Go `int64` arithmetic. -/
def wrap64 (x : Int) : Int :=
  (x + 9223372036854775808) % 18446744073709551616 - 9223372036854775808

/-- `time.Time.Sub` (result clamped to the `int64` duration range). -/
def timeSub (t u : Int) : Int := max (min (t - u) int64Max) int64Min

/-- `time.Duration(expiration) * 24 * time.Hour`, with Go's wrapping
multiplication (left-associated). -/
def expirationNs (expiration : Int) : Int :=
  wrap64 (wrap64 (expiration * 24) * 3600000000000)

/-- The `ConfigManager` interface: `GetEnabledChecksForPath`. -/
abbrev ConfigMgr := Str → List String

/-- `defaultConfigManager.GetEnabledChecksForPath`: every catalog check is
enabled for every path. -/
def defaultEnabledChecks : List String :=
  ["NO_FRONT_MATTER", "NO_TRAILING_NEWLINE", "UNKNOWN_ATTRIBUTE", "NO_TITLE", "LONG_TITLE",
   "SHORT_TITLE", "NO_DESCRIPTION", "LONG_DESCRIPTION", "SHORT_DESCRIPTION",
   "NO_FULL_STOP_DESCRIPTION", "INVALID_DESCRIPTION", "NO_LINK_TITLE", "LONG_LINK_TITLE",
   "NO_WEIGHT", "NO_OWNER", "INVALID_OWNER", "NO_LAST_REVIEW_DATE", "REVIEW_TOO_LONG_AGO",
   "INVALID_LAST_REVIEW_DATE", "NO_USER_QUESTIONS", "LONG_USER_QUESTION", "NO_QUESTION_MARK",
   "RUNBOOK_LAYOUT_NOT_SET", "INVALID_RUNBOOK_VARIABLES", "RUNBOOK_VARIABLE_WITHOUT_NAME",
   "INVALID_RUNBOOK_VARIABLE_NAME", "INVALID_RUNBOOK_VARIABLE", "INVALID_RUNBOOK_DASHBOARDS",
   "INVALID_RUNBOOK_DASHBOARD", "INVALID_RUNBOOK_DASHBOARD_LINK",
   "INVALID_RUNBOOK_KNOWN_ISSUES", "INVALID_RUNBOOK_KNOWN_ISSUE",
   "INVALID_RUNBOOK_KNOWN_ISSUE_URL", "RUNBOOK_APPEARS_IN_MENU"]

def defaultConfigManager : ConfigMgr := fun _ => defaultEnabledChecks

/-- `Validator.shouldSkipCheck`: skip a check unless the config manager lists
it among the enabled checks for the path. -/
def shouldSkipCheck (cm : ConfigMgr) (filePath : Str) (checkID : String) : Bool :=
  !((cm filePath).any (fun c => c = checkID))

/-- YAML decoding oracle for the typed `FrontMatter` schema
(`yaml.Unmarshal` is external to this repository). -/
abbrev YamlFM := Str → Option FrontMatter

/-- YAML decoding oracle for the generic `map[string]interface{}` parse:
the key list of the decoded map (Go iterates it in unspecified order). -/
abbrev YamlKeys := Str → Option (List Str)

/-- `Validator.parseFrontMatter`: locate the `(?m)^---\n` delimiters, cut the
block between the first two, count its lines, and decode it. -/
def parseFrontMatter (yamlFM : YamlFM) (content : Str) :
    Option (FrontMatter × Str × Nat) :=
  match delimPositions content with
  | [] => none
  | [_] => none
  | p0 :: p1 :: _ =>
    let start := p0 + 4
    let fmString := (content.drop start).take (p1 - start)
    match yamlFM fmString with
    | none => none
    | some fm => some (fm, fmString, 1 + countNewlines fmString)

/-- `Validator.validateUnknownAttributes`. -/
def validateUnknownAttributes (yamlKeys : YamlKeys) (fmString : Str) : List CheckResult :=
  match yamlKeys fmString with
  | none => []
  | some keys =>
    keys.filterMap (fun k =>
      if GetValidKeys.contains k then none
      else some { check := UnknownAttribute, value := .str k })

/-- `Validator.validateTitle`. -/
def validateTitle (fm : FrontMatter) : List CheckResult :=
  if fm.title = [] then
    [{ check := NoTitle }]
  else
    (if fm.title.length < 5 then [{ check := ShortTitle, value := .str fm.title }] else []) ++
    (if fm.title.length > 100 then [{ check := LongTitle, value := .str fm.title }] else [])

/-- `Validator.validateDescription`. -/
def validateDescription (cm : ConfigMgr) (fm : FrontMatter) (filePath : Str) :
    List CheckResult :=
  if fm.description = [] then
    if !shouldSkipCheck cm filePath NoDescription then [{ check := NoDescription }] else []
  else if (trimSpace fm.description).contains '\n' then
    if !shouldSkipCheck cm filePath InvalidDescription then
      [{ check := InvalidDescription, value := .str fm.description }]
    else []
  else
    (if fm.description.length < 50 && !shouldSkipCheck cm filePath ShortDescription then
      [{ check := ShortDescription, value := .str fm.description }] else []) ++
    (if fm.description.length > 300 && !shouldSkipCheck cm filePath LongDescription then
      [{ check := LongDescription, value := .str fm.description }] else []) ++
    (if !goHasSuf fm.description ".".data &&
        !shouldSkipCheck cm filePath NoFullStopDescription then
      [{ check := NoFullStopDescription, value := .str fm.description }] else [])

/-- `Validator.validateLinkTitle`. -/
def validateLinkTitle (cm : ConfigMgr) (fm : FrontMatter) (filePath : Str) :
    List CheckResult :=
  let linkTitle := if fm.linkTitle = [] then fm.title else fm.linkTitle
  if linkTitle.length > 40 && !shouldSkipCheck cm filePath LongLinkTitle then
    [{ check := LongLinkTitle, value := .str linkTitle }]
  else []

/-- `Validator.validateMenuAndWeight`. -/
def validateMenuAndWeight (fm : FrontMatter) : List CheckResult :=
  match fm.menu with
  | none => []
  | some _ =>
    (if fm.linkTitle = [] && fm.title = [] then [{ check := NoLinkTitle }] else []) ++
    (if fm.weight = none then [{ check := NoWeight }] else [])

def ownerTeamsUrl : Str := "https://github.com/orgs/giantswarm/teams/".data

/-- `Validator.validateOwner` (one finding carrying the whole list, then the
loop breaks). -/
def validateOwner (cm : ConfigMgr) (fm : FrontMatter) (filePath : Str) : List CheckResult :=
  if fm.owner = [] then
    if !shouldSkipCheck cm filePath NoOwner then [{ check := NoOwner }] else []
  else if fm.owner.any (fun o => !goHasPre o ownerTeamsUrl) then
    [{ check := InvalidOwner, value := .strList fm.owner }]
  else []

/-- Per-question findings inside `Validator.validateUserQuestions`. -/
def userQuestionFindings (q : Str) : List CheckResult :=
  (if q.length > 100 then [{ check := LongUserQuestion, value := .str q }] else []) ++
  (if !goHasSuf q "?".data then [{ check := NoQuestionMark, value := .str q }] else [])

/-- `Validator.validateUserQuestions`. -/
def validateUserQuestions (cm : ConfigMgr) (fm : FrontMatter) (filePath : Str) :
    List CheckResult :=
  if fm.userQuestions = [] then
    if !shouldSkipCheck cm filePath NoUserQuestions && !goHasSuf filePath "_index.md".data then
      [{ check := NoUserQuestions }]
    else []
  else fm.userQuestions.flatMap userQuestionFindings

/-- `Validator.validateLastReviewDate` (`today` is the `time.Now()` reading). -/
def validateLastReviewDate (cm : ConfigMgr) (fm : FrontMatter) (filePath : Str)
    (today : Int) : List CheckResult :=
  match fm.lastReviewDate with
  | none =>
    if !shouldSkipCheck cm filePath NoLastReviewDate then [{ check := NoLastReviewDate }]
    else []
  | some d =>
    if d > today then
      [{ check := InvalidLastReviewDate, value := .date d, title := fm.title,
         owner := fm.owner }]
    else if !shouldSkipCheck cm filePath ReviewTooLongAgo then
      let expiration := fm.expirationInDays.getD 365
      if timeSub today d > expirationNs expiration then
        [{ check := ReviewTooLongAgo, value := .date d, title := fm.title,
           owner := fm.owner }]
      else []
    else []

/-- `true` iff the name matches `^[A-Z_]+$`. -/
def varNameOk (name : Str) : Bool := !name.isEmpty && name.all isVarChar

/-- The loop body of `Validator.validateRunbookVariables`: `i` is the range
index, `seen` the name set accumulated in `variableNames`. -/
def runbookVariablesLoop (cm : ConfigMgr) (filePath : Str) :
    List RunbookVariable → Nat → List Str → List CheckResult
  | [], _, _ => []
  | v :: rest, i, seen =>
    if v.name = [] then
      (if !shouldSkipCheck cm filePath RunbookVariableWithoutName then
        [{ check := RunbookVariableWithoutName,
           value := .str ("Variable at index ".data ++ natToStr i) }]
      else []) ++ runbookVariablesLoop cm filePath rest (i + 1) seen
    else
      (if !varNameOk v.name && !shouldSkipCheck cm filePath InvalidRunbookVariableName then
        [{ check := InvalidRunbookVariableName, value := .str v.name }]
      else []) ++
      (if seen.contains v.name && !shouldSkipCheck cm filePath InvalidRunbookVariableName then
        [{ check := InvalidRunbookVariableName,
           value := .str ("Duplicate variable name: ".data ++ v.name) }]
      else []) ++
      runbookVariablesLoop cm filePath rest (i + 1) (v.name :: seen)

/-- `Validator.validateRunbookVariables`. -/
def validateRunbookVariables (cm : ConfigMgr) (rb : Runbook) (filePath : Str) :
    List CheckResult :=
  if rb.vars.length = 0 then []
  else runbookVariablesLoop cm filePath rb.vars 0 []

/-- The `variableNames` map built in `Validator.validateRunbookDashboards`:
every variable with a non-empty name, whatever its format. -/
def dashboardVarNames (rb : Runbook) : List Str :=
  rb.vars.filterMap (fun v => if v.name = [] then none else some v.name)

/-- `Validator.validateRunbookDashboardLink`. -/
def validateRunbookDashboardLink (cm : ConfigMgr) (link : Str) (variableNames : List Str)
    (filePath : Str) : List CheckResult :=
  ((extractVariables link).filterMap (fun t =>
    if !variableNames.contains t &&
       !shouldSkipCheck cm filePath InvalidRunbookDashboardLink then
      some { check := InvalidRunbookDashboardLink,
             value := .str ("Undefined variable $".data ++ t ++ " in link: ".data ++ link) }
    else none)) ++
  (let testLink := variableNames.foldl
      (fun l name => replaceAll l ('$' :: name) "test".data) link
   if !goHasPre testLink "http://".data && !goHasPre testLink "https://".data &&
      !shouldSkipCheck cm filePath InvalidRunbookDashboardLink then
     [{ check := InvalidRunbookDashboardLink,
        value := .str ("Invalid URL format: ".data ++ link) }]
   else [])

/-- The loop body of `Validator.validateRunbookDashboards`. -/
def runbookDashboardsLoop (cm : ConfigMgr) (filePath : Str) (variableNames : List Str) :
    List RunbookDashboard → Nat → List CheckResult
  | [], _ => []
  | d :: rest, i =>
    (if d.name = [] || d.link = [] then
      (if !shouldSkipCheck cm filePath InvalidRunbookDashboard then
        [{ check := InvalidRunbookDashboard,
           value := .str ("Dashboard at index ".data ++ natToStr i ++
                          " missing name or link".data) }]
      else [])
    else validateRunbookDashboardLink cm d.link variableNames filePath) ++
    runbookDashboardsLoop cm filePath variableNames rest (i + 1)

/-- `Validator.validateRunbookDashboards`. -/
def validateRunbookDashboards (cm : ConfigMgr) (rb : Runbook) (filePath : Str) :
    List CheckResult :=
  if rb.dashboards.length = 0 then []
  else runbookDashboardsLoop cm filePath (dashboardVarNames rb) rb.dashboards 0

/-- The loop body of `Validator.validateRunbookKnownIssues`. -/
def runbookKnownIssuesLoop (cm : ConfigMgr) (filePath : Str) :
    List RunbookKnownIssue → Nat → List CheckResult
  | [], _ => []
  | issue :: rest, i =>
    (if issue.url = [] then
      (if !shouldSkipCheck cm filePath InvalidRunbookKnownIssue then
        [{ check := InvalidRunbookKnownIssue,
           value := .str ("Known issue at index ".data ++ natToStr i ++
                          " missing URL".data) }]
      else [])
    else if !goHasPre issue.url "http://".data && !goHasPre issue.url "https://".data then
      (if !shouldSkipCheck cm filePath InvalidRunbookKnownIssueURL then
        [{ check := InvalidRunbookKnownIssueURL, value := .str issue.url }]
      else [])
    else []) ++
    runbookKnownIssuesLoop cm filePath rest (i + 1)

/-- `Validator.validateRunbookKnownIssues`. -/
def validateRunbookKnownIssues (cm : ConfigMgr) (rb : Runbook) (filePath : Str) :
    List CheckResult :=
  if rb.knownIssues.length = 0 then []
  else runbookKnownIssuesLoop cm filePath rb.knownIssues 0

/-- `Validator.validateRunbook`. -/
def validateRunbook (cm : ConfigMgr) (fm : FrontMatter) (filePath : Str) :
    List CheckResult :=
  if fm.layout = "runbook".data then
    (if !fm.tocHide && !shouldSkipCheck cm filePath RunbookAppearsInMenu then
      [{ check := RunbookAppearsInMenu }]
    else []) ++
    (match fm.runbook with
     | none => []
     | some rb =>
       validateRunbookVariables cm rb filePath ++
       validateRunbookDashboards cm rb filePath ++
       validateRunbookKnownIssues cm rb filePath)
  else
    match fm.runbook with
    | none => []
    | some _ =>
      if !shouldSkipCheck cm filePath RunbookLayoutNotSet then
        [{ check := RunbookLayoutNotSet }]
      else []

/-- `Validator.validateAll`: the eight field validators plus the runbook
validator, in program order. -/
def validateAll (cm : ConfigMgr) (yamlKeys : YamlKeys) (fm : FrontMatter)
    (fmString filePath : Str) (today : Int) : List CheckResult :=
  validateUnknownAttributes yamlKeys fmString ++
  validateTitle fm ++
  validateDescription cm fm filePath ++
  validateLinkTitle cm fm filePath ++
  validateMenuAndWeight fm ++
  validateOwner cm fm filePath ++
  validateUserQuestions cm fm filePath ++
  validateLastReviewDate cm fm filePath today ++
  validateRunbook cm fm filePath

/-- `Validator.ValidateFile` (the `Validate` entry point of the engine). -/
def validateFile (cm : ConfigMgr) (yamlFM : YamlFM) (yamlKeys : YamlKeys)
    (content filePath : Str) (today : Int) : ValidationResult :=
  if !goHasSuf content "\n".data then
    { numFrontMatterLines := 0,
      checks :=
        if !shouldSkipCheck cm filePath NoTrailingNewline then
          [{ check := NoTrailingNewline, line := 1 + countNewlines content }]
        else [] }
  else
    match parseFrontMatter yamlFM content with
    | none =>
      { numFrontMatterLines := 0,
        checks :=
          if !shouldSkipCheck cm filePath NoFrontMatter then
            [{ check := NoFrontMatter, line := 1 }]
          else [] }
    | some (fm, fmString, numFMLines) =>
      { numFrontMatterLines := numFMLines,
        checks := validateAll cm yamlKeys fm fmString filePath today }

/-- Membership of a check identifier in a finding list. -/
def hasCheck (l : List CheckResult) (c : String) : Bool :=
  l.any (fun r => r.check = c)

/-- The check identifiers whose append sites in steps 4-10 of `validateAll`
consult `shouldSkipCheck`.  The remaining identifiers of those steps
(`NO_TITLE`, `SHORT_TITLE`, `LONG_TITLE`, `NO_LINK_TITLE`, `NO_WEIGHT`,
`INVALID_OWNER`, `LONG_USER_QUESTION`, `NO_QUESTION_MARK`,
`INVALID_LAST_REVIEW_DATE`) are appended unconditionally. -/
def gatedChecks : List String :=
  [NoDescription, InvalidDescription, ShortDescription, LongDescription,
   NoFullStopDescription, LongLinkTitle, NoOwner, NoUserQuestions, NoLastReviewDate,
   ReviewTooLongAgo, RunbookAppearsInMenu, RunbookLayoutNotSet,
   RunbookVariableWithoutName, InvalidRunbookVariableName, InvalidRunbookDashboard,
   InvalidRunbookDashboardLink, InvalidRunbookKnownIssue, InvalidRunbookKnownIssueURL]

/-- The enable/disable events `GetEnabledChecksForPath` applies, in program
order, written the way the specification describes the algorithm: default
enabled, then default disabled, then per matching override its enabled then
its disabled identifiers. -/
def resolveEvents (cfg : Config) (filePath : Str) : List (String × Bool) :=
  cfg.defaultRules.enabledChecks.map (fun c => (c, true)) ++
  cfg.defaultRules.disabledChecks.map (fun c => (c, false)) ++
  (cfg.directoryOverrides.filter (fun o => pathMatches filePath o.path)).flatMap
    (fun o => o.enabledChecks.map (fun c => (c, true)) ++
              o.disabledChecks.map (fun c => (c, false)))

/-- The last add/remove decision applied to identifier `c`
(`none` if no event mentions `c`): the specification's
last-applied-wins reading. -/
def lastWrite (evs : List (String × Bool)) (c : String) : Option Bool :=
  evs.foldl (fun acc e => if e.1 = c then some e.2 else acc) none

/-- The specification's description of the path matcher, literally: after
stripping one leading `./` from both sides, a `prefix/**` pattern matches the
prefix itself and anything strictly under it, a `prefix/*` pattern matches
exactly one segment below the prefix, and any other pattern matches only
exactly. -/
def pathMatchesSpec (filePath pattern : Str) : Prop :=
  let f := trimPre filePath "./".data
  let p := trimPre pattern "./".data
  if ("/**".data).isSuffixOf p then
    ∃ pre, p = pre ++ "/**".data ∧ (f = pre ∨ ∃ rest, f = pre ++ '/' :: rest)
  else if ("/*".data).isSuffixOf p then
    ∃ pre, p = pre ++ "/*".data ∧ ∃ seg, f = pre ++ '/' :: seg ∧ '/' ∉ seg
  else f = p

/-- Nanoseconds per day (no overflow: the mathematical value). -/
def nsPerDay : Int := 86400000000000

/-- The `Value` string of an undefined-token dashboard-link finding. -/
def undefinedVarMsg (t link : Str) : Str :=
  "Undefined variable $".data ++ t ++ " in link: ".data ++ link

/-! ## Helper lemmas: which identifiers each sub-validator can emit, and which
of its append sites consult `shouldSkipCheck`. -/

theorem shouldSkipCheck_default (filePath : Str) {c : String}
    (h : c ∈ defaultEnabledChecks) :
    shouldSkipCheck defaultConfigManager filePath c = false := by
  simp only [shouldSkipCheck, defaultConfigManager, Bool.not_eq_false', List.any_eq_true]
  exact ⟨c, h, by simp⟩

theorem validateUnknownAttributes_shape (yamlKeys : YamlKeys) (fmString : Str) :
    ∀ r ∈ validateUnknownAttributes yamlKeys fmString, r.check = UnknownAttribute := by
  intro r hr
  unfold validateUnknownAttributes at hr
  cases h : yamlKeys fmString with
  | none => simp [h] at hr
  | some keys =>
    rw [h] at hr
    obtain ⟨k, -, hk⟩ := List.mem_filterMap.mp hr
    split_ifs at hk
    all_goals first
      | exact Option.noConfusion hk
      | (injection hk with h'; subst h'; rfl)

theorem validateTitle_shape (fm : FrontMatter) :
    ∀ r ∈ validateTitle fm,
      r.check = NoTitle ∨ r.check = ShortTitle ∨ r.check = LongTitle := by
  intro r hr
  unfold validateTitle at hr
  split_ifs at hr
  all_goals simp only [List.mem_append, List.mem_ite_nil_right, List.mem_singleton,
    List.not_mem_nil, or_false, false_or, and_false, false_and, Bool.and_eq_true,
    Bool.not_eq_true', List.nil_append] at hr
  all_goals try casesm* _ ∨ _, _ ∧ _
  all_goals subst_vars
  all_goals simp_all

theorem validateDescription_shape (cm : ConfigMgr) (fm : FrontMatter) (filePath : Str) :
    ∀ r ∈ validateDescription cm fm filePath,
      (r.check = NoDescription ∨ r.check = InvalidDescription ∨
       r.check = ShortDescription ∨ r.check = LongDescription ∨
       r.check = NoFullStopDescription) ∧
      shouldSkipCheck cm filePath r.check = false := by
  intro r hr
  unfold validateDescription at hr
  split_ifs at hr
  all_goals simp only [List.mem_append, List.mem_ite_nil_right, List.mem_singleton,
    List.not_mem_nil, or_false, false_or, and_false, false_and, Bool.and_eq_true,
    Bool.not_eq_true', List.nil_append] at hr
  all_goals try casesm* _ ∨ _, _ ∧ _
  all_goals subst_vars
  all_goals simp_all

theorem validateLinkTitle_shape (cm : ConfigMgr) (fm : FrontMatter) (filePath : Str) :
    ∀ r ∈ validateLinkTitle cm fm filePath,
      r.check = LongLinkTitle ∧ shouldSkipCheck cm filePath r.check = false := by
  intro r hr
  unfold validateLinkTitle at hr
  split_ifs at hr
  all_goals simp only [List.mem_append, List.mem_ite_nil_right, List.mem_singleton,
    List.not_mem_nil, or_false, false_or, and_false, false_and, Bool.and_eq_true,
    Bool.not_eq_true', List.nil_append] at hr
  all_goals try casesm* _ ∨ _, _ ∧ _
  all_goals subst_vars
  all_goals simp_all

theorem validateMenuAndWeight_shape (fm : FrontMatter) :
    ∀ r ∈ validateMenuAndWeight fm, r.check = NoLinkTitle ∨ r.check = NoWeight := by
  intro r hr
  unfold validateMenuAndWeight at hr
  rcases hm : fm.menu with _ | u <;> rw [hm] at hr
  · simp at hr
  · try dsimp only at hr
    split_ifs at hr
    all_goals simp only [List.mem_append, List.mem_ite_nil_right, List.mem_singleton,
      List.not_mem_nil, or_false, false_or, and_false, false_and, Bool.and_eq_true,
      Bool.not_eq_true', List.nil_append] at hr
    all_goals try casesm* _ ∨ _, _ ∧ _
    all_goals subst_vars
    all_goals simp_all

theorem validateOwner_shape (cm : ConfigMgr) (fm : FrontMatter) (filePath : Str) :
    ∀ r ∈ validateOwner cm fm filePath,
      (r.check = NoOwner ∧ shouldSkipCheck cm filePath r.check = false) ∨
      r.check = InvalidOwner := by
  intro r hr
  unfold validateOwner at hr
  split_ifs at hr
  all_goals simp only [List.mem_append, List.mem_ite_nil_right, List.mem_singleton,
    List.not_mem_nil, or_false, false_or, and_false, false_and, Bool.and_eq_true,
    Bool.not_eq_true', List.nil_append] at hr
  all_goals try casesm* _ ∨ _, _ ∧ _
  all_goals subst_vars
  all_goals simp_all

theorem validateUserQuestions_shape (cm : ConfigMgr) (fm : FrontMatter) (filePath : Str) :
    ∀ r ∈ validateUserQuestions cm fm filePath,
      (r.check = NoUserQuestions ∧ shouldSkipCheck cm filePath r.check = false) ∨
      r.check = LongUserQuestion ∨ r.check = NoQuestionMark := by
  intro r hr
  unfold validateUserQuestions at hr
  split_ifs at hr
  · simp only [List.mem_singleton] at hr
    subst hr
    simp_all
  · simp at hr
  · obtain ⟨q, -, hq⟩ := List.mem_flatMap.mp hr
    unfold userQuestionFindings at hq
    split_ifs at hq
    all_goals simp only [List.mem_append, List.mem_ite_nil_right, List.mem_singleton,
      List.not_mem_nil, or_false, false_or, and_false, false_and, Bool.and_eq_true,
      Bool.not_eq_true', List.nil_append] at hq
    all_goals try casesm* _ ∨ _, _ ∧ _
    all_goals subst_vars
    all_goals simp_all

theorem validateLastReviewDate_shape (cm : ConfigMgr) (fm : FrontMatter) (filePath : Str)
    (today : Int) :
    ∀ r ∈ validateLastReviewDate cm fm filePath today,
      (r.check = NoLastReviewDate ∧ shouldSkipCheck cm filePath r.check = false) ∨
      r.check = InvalidLastReviewDate ∨
      (r.check = ReviewTooLongAgo ∧ shouldSkipCheck cm filePath r.check = false) := by
  intro r hr
  unfold validateLastReviewDate at hr
  rcases hd : fm.lastReviewDate with _ | d <;> rw [hd] at hr <;> try dsimp only at hr
  · split_ifs at hr
    all_goals simp only [List.mem_append, List.mem_ite_nil_right, List.mem_singleton,
      List.not_mem_nil, or_false, false_or, and_false, false_and, Bool.and_eq_true,
      Bool.not_eq_true', List.nil_append] at hr
    all_goals try casesm* _ ∨ _, _ ∧ _
    all_goals subst_vars
    all_goals simp_all
  · split_ifs at hr
    all_goals simp only [List.mem_append, List.mem_ite_nil_right, List.mem_singleton,
      List.not_mem_nil, or_false, false_or, and_false, false_and, Bool.and_eq_true,
      Bool.not_eq_true', List.nil_append] at hr
    all_goals try casesm* _ ∨ _, _ ∧ _
    all_goals subst_vars
    all_goals simp_all

theorem runbookVariablesLoop_shape (cm : ConfigMgr) (filePath : Str) :
    ∀ (vs : List RunbookVariable) (i : Nat) (seen : List Str),
      ∀ r ∈ runbookVariablesLoop cm filePath vs i seen,
        (r.check = RunbookVariableWithoutName ∨ r.check = InvalidRunbookVariableName) ∧
        shouldSkipCheck cm filePath r.check = false := by
  intro vs
  induction vs with
  | nil => intro i seen r hr; simp [runbookVariablesLoop] at hr
  | cons v rest ih =>
    intro i seen r hr
    unfold runbookVariablesLoop at hr
    split_ifs at hr
    all_goals simp only [List.mem_append, List.mem_ite_nil_right, List.mem_singleton,
      List.not_mem_nil, or_false, false_or, and_false, false_and, Bool.and_eq_true,
      Bool.not_eq_true', List.nil_append] at hr
    all_goals try casesm* _ ∨ _, _ ∧ _
    all_goals subst_vars
    all_goals first
      | exact ih _ _ r (by assumption)
      | simp_all

theorem validateRunbookDashboardLink_shape (cm : ConfigMgr) (link : Str)
    (variableNames : List Str) (filePath : Str) :
    ∀ r ∈ validateRunbookDashboardLink cm link variableNames filePath,
      r.check = InvalidRunbookDashboardLink ∧
      shouldSkipCheck cm filePath r.check = false := by
  intro r hr
  unfold validateRunbookDashboardLink at hr
  simp only [List.mem_append] at hr
  rcases hr with hr | hr
  · obtain ⟨t, -, ht⟩ := List.mem_filterMap.mp hr
    split_ifs at ht
    all_goals first
      | exact Option.noConfusion ht
      | (injection ht with h'; subst h'; simp_all)
  · split_ifs at hr
    all_goals simp only [List.mem_append, List.mem_ite_nil_right, List.mem_singleton,
      List.not_mem_nil, or_false, false_or, and_false, false_and, Bool.and_eq_true,
      Bool.not_eq_true', List.nil_append] at hr
    all_goals try casesm* _ ∨ _, _ ∧ _
    all_goals subst_vars
    all_goals simp_all

theorem runbookDashboardsLoop_shape (cm : ConfigMgr) (filePath : Str)
    (variableNames : List Str) :
    ∀ (ds : List RunbookDashboard) (i : Nat),
      ∀ r ∈ runbookDashboardsLoop cm filePath variableNames ds i,
        (r.check = InvalidRunbookDashboard ∨ r.check = InvalidRunbookDashboardLink) ∧
        shouldSkipCheck cm filePath r.check = false := by
  intro ds
  induction ds with
  | nil => intro i r hr; simp [runbookDashboardsLoop] at hr
  | cons d rest ih =>
    intro i r hr
    unfold runbookDashboardsLoop at hr
    simp only [List.mem_append] at hr
    rcases hr with hr | hr
    · split_ifs at hr
      all_goals first
        | (simp only [List.mem_singleton, List.not_mem_nil] at hr; try subst_vars;
           try simp_all
           done)
        | (have h := validateRunbookDashboardLink_shape cm d.link variableNames filePath
             r hr;
           exact ⟨Or.inr h.1, h.2⟩)
    · exact ih (i + 1) r hr

theorem runbookKnownIssuesLoop_shape (cm : ConfigMgr) (filePath : Str) :
    ∀ (issues : List RunbookKnownIssue) (i : Nat),
      ∀ r ∈ runbookKnownIssuesLoop cm filePath issues i,
        (r.check = InvalidRunbookKnownIssue ∨ r.check = InvalidRunbookKnownIssueURL) ∧
        shouldSkipCheck cm filePath r.check = false := by
  intro issues
  induction issues with
  | nil => intro i r hr; simp [runbookKnownIssuesLoop] at hr
  | cons issue rest ih =>
    intro i r hr
    unfold runbookKnownIssuesLoop at hr
    simp only [List.mem_append] at hr
    rcases hr with hr | hr
    · split_ifs at hr
      all_goals simp only [List.mem_singleton, List.not_mem_nil] at hr
      all_goals subst_vars
      all_goals simp_all
    · exact ih (i + 1) r hr

theorem validateRunbookVariables_shape (cm : ConfigMgr) (rb : Runbook) (filePath : Str) :
    ∀ r ∈ validateRunbookVariables cm rb filePath,
      (r.check = RunbookVariableWithoutName ∨ r.check = InvalidRunbookVariableName) ∧
      shouldSkipCheck cm filePath r.check = false := by
  intro r hr
  unfold validateRunbookVariables at hr
  split_ifs at hr
  all_goals first
    | exact absurd hr (List.not_mem_nil r)
    | exact runbookVariablesLoop_shape cm filePath rb.vars 0 [] r hr

theorem validateRunbookDashboards_shape (cm : ConfigMgr) (rb : Runbook) (filePath : Str) :
    ∀ r ∈ validateRunbookDashboards cm rb filePath,
      (r.check = InvalidRunbookDashboard ∨ r.check = InvalidRunbookDashboardLink) ∧
      shouldSkipCheck cm filePath r.check = false := by
  intro r hr
  unfold validateRunbookDashboards at hr
  split_ifs at hr
  all_goals first
    | exact absurd hr (List.not_mem_nil r)
    | exact runbookDashboardsLoop_shape cm filePath (dashboardVarNames rb)
        rb.dashboards 0 r hr

theorem validateRunbookKnownIssues_shape (cm : ConfigMgr) (rb : Runbook) (filePath : Str) :
    ∀ r ∈ validateRunbookKnownIssues cm rb filePath,
      (r.check = InvalidRunbookKnownIssue ∨ r.check = InvalidRunbookKnownIssueURL) ∧
      shouldSkipCheck cm filePath r.check = false := by
  intro r hr
  unfold validateRunbookKnownIssues at hr
  split_ifs at hr
  all_goals first
    | exact absurd hr (List.not_mem_nil r)
    | exact runbookKnownIssuesLoop_shape cm filePath rb.knownIssues 0 r hr

theorem validateRunbook_shape (cm : ConfigMgr) (fm : FrontMatter) (filePath : Str) :
    ∀ r ∈ validateRunbook cm fm filePath,
      (r.check = RunbookAppearsInMenu ∨ r.check = RunbookLayoutNotSet ∨
       r.check = RunbookVariableWithoutName ∨ r.check = InvalidRunbookVariableName ∨
       r.check = InvalidRunbookDashboard ∨ r.check = InvalidRunbookDashboardLink ∨
       r.check = InvalidRunbookKnownIssue ∨ r.check = InvalidRunbookKnownIssueURL) ∧
      shouldSkipCheck cm filePath r.check = false := by
  intro r hr
  unfold validateRunbook at hr
  rcases hrb : fm.runbook with _ | rb <;> rw [hrb] at hr <;> try dsimp only at hr
  all_goals split_ifs at hr
  all_goals try simp only [List.mem_append, List.mem_singleton, List.not_mem_nil,
    or_false, false_or, List.nil_append, List.append_nil] at hr
  all_goals try casesm* _ ∨ _
  all_goals first
    | (subst_vars; simp_all; done)
    | (have h := validateRunbookVariables_shape cm rb filePath r (by assumption);
       exact ⟨by tauto, h.2⟩)
    | (have h := validateRunbookDashboards_shape cm rb filePath r (by assumption);
       exact ⟨by tauto, h.2⟩)
    | (have h := validateRunbookKnownIssues_shape cm rb filePath r (by assumption);
       exact ⟨by tauto, h.2⟩)

/-! ## Claim C6 -/

/-- C6: for every document whose raw text does not end in a newline, `Validate`
returns a result whose finding list is exactly one `NO_TRAILING_NEWLINE`
finding, whatever the rest of the content is; no extraction, parsing, or
other check contributes findings. -/
theorem validate_noTrailingNewline_only (yamlFM : YamlFM) (yamlKeys : YamlKeys)
    (content filePath : Str) (today : Int)
    (h : goHasSuf content "\n".data = false) :
    validateFile defaultConfigManager yamlFM yamlKeys content filePath today =
      { numFrontMatterLines := 0,
        checks := [{ check := NoTrailingNewline, line := 1 + countNewlines content }] } := by
  unfold validateFile
  rw [h]
  simp only [Bool.not_false, if_true]
  have hs : shouldSkipCheck defaultConfigManager filePath NoTrailingNewline = false := rfl
  rw [hs]
  simp

/-- Witness for C6 at a concrete document. -/
theorem validate_noTrailingNewline_only_witness :
    goHasSuf "# hi".data "\n".data = false ∧
    validateFile defaultConfigManager (fun _ => none) (fun _ => none) "# hi".data
      "docs/a.md".data 0 =
      { numFrontMatterLines := 0,
        checks := [{ check := NoTrailingNewline, line := 1 + countNewlines "# hi".data }] } :=
  ⟨by decide,
   validate_noTrailingNewline_only (fun _ => none) (fun _ => none) "# hi".data
     "docs/a.md".data 0 (by decide)⟩

/-! ## Claim C1 -/

theorem validateAll_gated (cm : ConfigMgr) (yamlKeys : YamlKeys) (fm : FrontMatter)
    (fmString filePath : Str) (today : Int) :
    ∀ r ∈ validateAll cm yamlKeys fm fmString filePath today,
      r.check ∈ gatedChecks → shouldSkipCheck cm filePath r.check = false := by
  intro r hr hg
  unfold validateAll at hr
  simp only [List.mem_append] at hr
  rcases hr with ((((((((hr | hr) | hr) | hr) | hr) | hr) | hr) | hr) | hr)
  · have h := validateUnknownAttributes_shape yamlKeys fmString r hr
    rw [h] at hg
    exact absurd hg (by decide)
  · rcases validateTitle_shape fm r hr with h | h | h <;> rw [h] at hg <;>
      exact absurd hg (by decide)
  · exact (validateDescription_shape cm fm filePath r hr).2
  · exact (validateLinkTitle_shape cm fm filePath r hr).2
  · rcases validateMenuAndWeight_shape fm r hr with h | h <;> rw [h] at hg <;>
      exact absurd hg (by decide)
  · rcases validateOwner_shape cm fm filePath r hr with ⟨-, h⟩ | h
    · exact h
    · rw [h] at hg
      exact absurd hg (by decide)
  · rcases validateUserQuestions_shape cm fm filePath r hr with ⟨-, h⟩ | h | h
    · exact h
    · rw [h] at hg
      exact absurd hg (by decide)
    · rw [h] at hg
      exact absurd hg (by decide)
  · rcases validateLastReviewDate_shape cm fm filePath today r hr with ⟨-, h⟩ | h | ⟨-, h⟩
    · exact h
    · rw [h] at hg
      exact absurd hg (by decide)
    · exact h
  · exact (validateRunbook_shape cm fm filePath r hr).2

/-- C1 (amended): a finding whose identifier has a gated append site — the
description checks, `LONG_LINK_TITLE`, `NO_OWNER`, `NO_USER_QUESTIONS`,
`NO_LAST_REVIEW_DATE`, `REVIEW_TOO_LONG_AGO` and every runbook check — never
appears in the result when the configuration marks that check inactive for
the path.  The other step 4-10 identifiers (`NO_TITLE`, `SHORT_TITLE`,
`LONG_TITLE`, `NO_LINK_TITLE`, `NO_WEIGHT`, `INVALID_OWNER`,
`LONG_USER_QUESTION`, `NO_QUESTION_MARK`, `INVALID_LAST_REVIEW_DATE`) are
appended without consulting the decision (see the counterexample). -/
theorem inactive_gated_check_not_reported (cm : ConfigMgr) (yamlFM : YamlFM)
    (yamlKeys : YamlKeys) (content filePath : Str) (today : Int) (c : String)
    (hc : c ∈ gatedChecks)
    (hskip : shouldSkipCheck cm filePath c = true) :
    hasCheck (validateFile cm yamlFM yamlKeys content filePath today).checks c = false := by
  rw [hasCheck, List.any_eq_false]
  intro r hr
  simp only [decide_eq_true_eq]
  intro rc
  subst rc
  unfold validateFile at hr
  split_ifs at hr <;> try dsimp only at hr
  all_goals try (rcases hp : parseFrontMatter yamlFM content with _ | ⟨fm, fmString, n⟩ <;>
    rw [hp] at hr <;> dsimp only at hr)
  all_goals first
    | exact absurd hr (List.not_mem_nil r)
    | (simp only [List.mem_singleton] at hr; subst hr; simp only at hc hskip;
       exact absurd hc (by decide))
    | (have h := validateAll_gated cm yamlKeys fm fmString filePath today r hr hc;
       rw [h] at hskip;
       exact Bool.noConfusion hskip)

/-- Witness for the amended C1. -/
theorem inactive_gated_check_not_reported_witness :
    NoDescription ∈ gatedChecks ∧
    shouldSkipCheck (fun _ => []) "docs/a.md".data NoDescription = true ∧
    hasCheck (validateFile (fun _ => []) (fun _ => some {}) (fun _ => some [])
      "---\nkey: value\n---\nbody\n".data "docs/a.md".data 0).checks NoDescription =
      false :=
  ⟨by decide, by decide,
   inactive_gated_check_not_reported (fun _ => []) (fun _ => some {}) (fun _ => some [])
     "---\nkey: value\n---\nbody\n".data "docs/a.md".data 0 NoDescription (by decide)
     (by decide)⟩

/-- C1 counterexample: a configuration manager that enables no checks marks
`NO_TITLE` inactive for the path, yet `Validate` still reports `NO_TITLE` for
a document with an empty title — the title check's append site never consults
the active-check decision. -/
theorem inactive_check_still_reported_counterexample :
    shouldSkipCheck (fun _ => []) "docs/a.md".data NoTitle = true ∧
    hasCheck (validateFile (fun _ => []) (fun _ => some {}) (fun _ => some [])
      "---\nkey: value\n---\nbody\n".data "docs/a.md".data 0).checks NoTitle = true := by
  constructor
  · decide
  · decide

/-! ## Claim C2 -/

theorem foldl_setCheck_true (l : List String) (m : CheckMap) (c : String) :
    (l.foldl (fun m ch => setCheck m ch true) m) c =
      if c ∈ l then some true else m c := by
  induction l generalizing m with
  | nil => simp
  | cons a l ih =>
    simp only [List.foldl_cons, ih, setCheck, List.mem_cons]
    by_cases h1 : c ∈ l <;> by_cases h2 : c = a <;> simp [h1, h2]

theorem foldl_overrides_no_match (path : Str) (ovs : List DirectoryOverride)
    (m : CheckMap) (hov : ∀ o ∈ ovs, pathMatches path o.path = false) :
    ovs.foldl
      (fun m o =>
        if pathMatches path o.path then
          let me := o.enabledChecks.foldl (fun m c => setCheck m c true) m
          o.disabledChecks.foldl (fun m c => setCheck m c false) me
        else m)
      m = m := by
  induction ovs generalizing m with
  | nil => rfl
  | cons o rest ih =>
    simp only [List.foldl_cons, hov o (List.mem_cons_self o rest), if_false,
      Bool.false_eq_true]
    exact ih m (fun o' ho' => hov o' (List.mem_cons_of_mem o ho'))

/-- C2 (amended): with no configuration file at the configured location the
manager deterministically falls back to `getDefaultConfig`; that fallback
enables only the 22 non-runbook catalog checks and carries six directory
overrides, so for a path matching none of the overrides the resolved active
set equals exactly the fallback's default enabled list — not the full
catalog (see the counterexample). -/
theorem defaultConfig_fallback_resolution (path : Str) (c : String)
    (hov : ∀ o ∈ getDefaultConfig.directoryOverrides, pathMatches path o.path = false) :
    loadConfig ConfigFile.absent = some getDefaultConfig ∧
    (resolveActive getDefaultConfig path c = true ↔
      c ∈ getDefaultConfig.defaultRules.enabledChecks) := by
  refine ⟨rfl, ?_⟩
  unfold resolveActive resolveCheckMap
  rw [foldl_overrides_no_match path _ _ hov]
  have hdis : getDefaultConfig.defaultRules.disabledChecks = [] := rfl
  rw [hdis]
  simp only [List.foldl_nil]
  rw [foldl_setCheck_true]
  by_cases h : c ∈ getDefaultConfig.defaultRules.enabledChecks <;> simp [h, emptyCheckMap]

/-- Witness for the amended C2. -/
theorem defaultConfig_fallback_resolution_witness :
    (∀ o ∈ getDefaultConfig.directoryOverrides,
      pathMatches "docs/a.md".data o.path = false) ∧
    (loadConfig ConfigFile.absent = some getDefaultConfig ∧
     (resolveActive getDefaultConfig "docs/a.md".data "NO_TITLE" = true ↔
       "NO_TITLE" ∈ getDefaultConfig.defaultRules.enabledChecks)) :=
  ⟨by decide,
   defaultConfig_fallback_resolution "docs/a.md".data "NO_TITLE" (by decide)⟩

/-- C2 counterexample: the fallback configuration's enabled set does not
contain the catalog check `RUNBOOK_LAYOUT_NOT_SET` (for any path — here one
matching no override), and its directory-override list is not empty, so the
resolved active set is not the full catalog. -/
theorem defaultConfig_not_full_catalog_counterexample :
    "RUNBOOK_LAYOUT_NOT_SET" ∈ checkCatalogIDs ∧
    resolveActive getDefaultConfig "docs/a.md".data "RUNBOOK_LAYOUT_NOT_SET" = false ∧
    getDefaultConfig.directoryOverrides ≠ [] := by
  refine ⟨by decide, by decide, by decide⟩


/-! ## Claim C3 -/

theorem foldl_setCheck_events (evs : List (String × Bool)) (m : CheckMap) (c : String) :
    (evs.foldl (fun m e => setCheck m e.1 e.2) m) c =
      evs.foldl (fun acc e => if e.1 = c then some e.2 else acc) (m c) := by
  induction evs generalizing m with
  | nil => rfl
  | cons e rest ih =>
    simp only [List.foldl_cons, ih]
    congr 1
    unfold setCheck
    by_cases h : c = e.1
    · rw [if_pos h, if_pos h.symm]
    · rw [if_neg h, if_neg (fun h' => h h'.symm)]

theorem overridesFold_eq_events (filePath : Str) (ovs : List DirectoryOverride)
    (m : CheckMap) :
    ovs.foldl
      (fun m o =>
        if pathMatches filePath o.path then
          let me := o.enabledChecks.foldl (fun m c => setCheck m c true) m
          o.disabledChecks.foldl (fun m c => setCheck m c false) me
        else m) m =
    ((ovs.filter (fun o => pathMatches filePath o.path)).flatMap
      (fun o => o.enabledChecks.map (fun c => (c, true)) ++
                o.disabledChecks.map (fun c => (c, false)))).foldl
      (fun m e => setCheck m e.1 e.2) m := by
  induction ovs generalizing m with
  | nil => rfl
  | cons o rest ih =>
    by_cases h : pathMatches filePath o.path
    · simp only [List.foldl_cons, h, if_true, List.filter_cons_of_pos,
        List.flatMap_cons, List.append_assoc, List.foldl_append, List.foldl_map]
      exact ih _
    · have hf : pathMatches filePath o.path = false := by simpa using h
      simp only [List.foldl_cons, hf, Bool.false_eq_true, if_false, List.filter_cons]
      simpa using ih m

theorem resolveCheckMap_eq_events (cfg : Config) (filePath : Str) :
    resolveCheckMap cfg filePath =
      (resolveEvents cfg filePath).foldl (fun m e => setCheck m e.1 e.2) emptyCheckMap := by
  unfold resolveCheckMap resolveEvents
  rw [List.foldl_append, List.foldl_append, List.foldl_map, List.foldl_map]
  exact overridesFold_eq_events filePath cfg.directoryOverrides _

/-- C3: for every `Config`, document path and identifier, membership in the
set returned by `GetEnabledChecksForPath` is exactly the specification's
resolution: take the default rule set's enabled identifiers, remove its
disabled identifiers, then apply each matching directory override in
declaration order, adding its enabled and removing its disabled identifiers;
per identifier the last applied add/remove wins. -/
theorem getEnabledChecks_lastWrite (cfg : Config) (filePath : Str) (c : String) :
    resolveActive cfg filePath c = true ↔
      lastWrite (resolveEvents cfg filePath) c = some true := by
  unfold resolveActive lastWrite
  rw [resolveCheckMap_eq_events, foldl_setCheck_events]
  show ((resolveEvents cfg filePath).foldl _ (emptyCheckMap c) == some true) = true ↔ _
  simp only [emptyCheckMap, beq_iff_eq]

/-- Witness for C3: the spec section 8 example configuration. -/
theorem getEnabledChecks_lastWrite_witness :
    resolveActive
        { defaultRules := { enabledChecks := ["NO_TITLE", "NO_DESCRIPTION"] },
          directoryOverrides :=
            [{ path := "docs/legacy/**".data, disabledChecks := ["NO_DESCRIPTION"] }] }
        "docs/legacy/x.md".data "NO_DESCRIPTION" = true ↔
      lastWrite
        (resolveEvents
          { defaultRules := { enabledChecks := ["NO_TITLE", "NO_DESCRIPTION"] },
            directoryOverrides :=
              [{ path := "docs/legacy/**".data, disabledChecks := ["NO_DESCRIPTION"] }] }
          "docs/legacy/x.md".data) "NO_DESCRIPTION" = some true :=
  getEnabledChecks_lastWrite _ _ "NO_DESCRIPTION"


/-! ## Claim C4 -/

theorem trimPre_append (a b : Str) : trimPre (a ++ b) a = b := by
  unfold trimPre
  rw [if_pos (List.isPrefixOf_iff_prefix.mpr ⟨b, rfl⟩), List.drop_left]

theorem trimSuf_append (pre suf : Str) : trimSuf (pre ++ suf) suf = pre := by
  unfold trimSuf
  rw [if_pos (List.isSuffixOf_iff_suffix.mpr ⟨pre, rfl⟩), List.length_append,
    Nat.add_sub_cancel, List.take_left]

/-- C4: the configuration path matcher agrees exactly with the
specification's three literal pattern forms (after both sides strip one
leading `./`): `prefix/**` matches the prefix itself or anything strictly
below it, `prefix/*` matches exactly one segment below the prefix, and any
other pattern matches only the identical path. -/
theorem pathMatches_iff_spec (filePath pattern : Str) :
    pathMatches filePath pattern = true ↔ pathMatchesSpec filePath pattern := by
  unfold pathMatches pathMatchesSpec goHasSuf goHasPre
  by_cases h2 : ("/**".data).isSuffixOf (trimPre pattern "./".data)
  · rw [if_pos h2, if_pos h2]
    obtain ⟨pre, hpre⟩ := List.isSuffixOf_iff_suffix.mp h2
    constructor
    · intro hcode
      refine ⟨pre, hpre.symm, ?_⟩
      rw [← hpre, trimSuf_append] at hcode
      rw [Bool.or_eq_true] at hcode
      rcases hcode with hpref | heq
      · obtain ⟨t, ht⟩ := List.isPrefixOf_iff_prefix.mp hpref
        refine Or.inr ⟨t, ?_⟩
        rw [← ht, List.append_assoc]
        rfl
      · exact Or.inl (by simpa using heq)
    · rintro ⟨pre', hp', hcase⟩
      have hpe : pre' = pre := List.append_cancel_right (hp'.symm.trans hpre.symm)
      subst hpe
      rw [← hpre, trimSuf_append]
      rcases hcase with hfe | ⟨rest, hrest⟩
      · simp [hfe]
      · rw [Bool.or_eq_true]
        refine Or.inl (List.isPrefixOf_iff_prefix.mpr ⟨rest, ?_⟩)
        rw [hrest, List.append_assoc]
        rfl
  · rw [if_neg h2, if_neg h2]
    by_cases h1 : ("/*".data).isSuffixOf (trimPre pattern "./".data)
    · rw [if_pos h1, if_pos h1]
      obtain ⟨pre, hpre⟩ := List.isSuffixOf_iff_suffix.mp h1
      constructor
      · intro hcode
        rw [← hpre, trimSuf_append] at hcode
        rw [Bool.and_eq_true] at hcode
        obtain ⟨hpref, hnoslash⟩ := hcode
        obtain ⟨t, ht⟩ := List.isPrefixOf_iff_prefix.mp hpref
        refine ⟨pre, hpre.symm, t, ?_, ?_⟩
        · rw [← ht, List.append_assoc]
          rfl
        · have htp : trimPre (trimPre filePath "./".data) (pre ++ "/".data) = t := by
            rw [← ht]
            exact trimPre_append _ _
          rw [htp] at hnoslash
          simpa [List.contains] using hnoslash
      · rintro ⟨pre', hp', seg, hseg, hnoslash⟩
        have hpe : pre' = pre := List.append_cancel_right (hp'.symm.trans hpre.symm)
        subst hpe
        rw [← hpre, trimSuf_append]
        have hfe : trimPre filePath "./".data = (pre' ++ "/".data) ++ seg := by
          rw [hseg, List.append_assoc]
          rfl
        rw [Bool.and_eq_true]
        refine ⟨List.isPrefixOf_iff_prefix.mpr ⟨seg, hfe.symm⟩, ?_⟩
        rw [hfe, trimPre_append]
        simpa [List.contains] using hnoslash
    · rw [if_neg h1, if_neg h1]
      simp

/-- Witness for C4 at a concrete path/pattern pair. -/
theorem pathMatches_iff_spec_witness :
    pathMatches "docs/legacy/x/y.md".data "docs/legacy/**".data = true ↔
      pathMatchesSpec "docs/legacy/x/y.md".data "docs/legacy/**".data :=
  pathMatches_iff_spec "docs/legacy/x/y.md".data "docs/legacy/**".data


/-! ## Claim C5 -/

theorem hasCheck_append (l₁ l₂ : List CheckResult) (c : String) :
    hasCheck (l₁ ++ l₂) c = (hasCheck l₁ c || hasCheck l₂ c) := List.any_append

theorem hasCheck_false_of_forall {l : List CheckResult} {c : String}
    (h : ∀ r ∈ l, r.check ≠ c) : hasCheck l c = false := by
  rw [hasCheck, List.any_eq_false]
  intro r hr
  simpa using h r hr

theorem hasCheck_nil (c : String) : hasCheck [] c = false := rfl

theorem hasCheck_cons (r : CheckResult) (l : List CheckResult) (c : String) :
    hasCheck (r :: l) c = (decide (r.check = c) || hasCheck l c) := rfl

theorem validateAll_hasCheck_to_lastReview (cm : ConfigMgr) (yk : YamlKeys)
    (fm : FrontMatter) (fmString filePath : Str) (today : Int) (c : String)
    (hc : c = InvalidLastReviewDate ∨ c = ReviewTooLongAgo) :
    hasCheck (validateAll cm yk fm fmString filePath today) c =
      hasCheck (validateLastReviewDate cm fm filePath today) c := by
  unfold validateAll
  simp only [hasCheck_append]
  have h1 : hasCheck (validateUnknownAttributes yk fmString) c = false := by
    apply hasCheck_false_of_forall
    intro r hr
    have h := validateUnknownAttributes_shape yk fmString r hr
    rcases hc with rfl | rfl <;> rw [h] <;> decide
  have h2 : hasCheck (validateTitle fm) c = false := by
    apply hasCheck_false_of_forall
    intro r hr
    rcases validateTitle_shape fm r hr with h | h | h <;> rcases hc with rfl | rfl <;>
      rw [h] <;> decide
  have h3 : hasCheck (validateDescription cm fm filePath) c = false := by
    apply hasCheck_false_of_forall
    intro r hr
    rcases (validateDescription_shape cm fm filePath r hr).1 with h | h | h | h | h <;>
      rcases hc with rfl | rfl <;> rw [h] <;> decide
  have h4 : hasCheck (validateLinkTitle cm fm filePath) c = false := by
    apply hasCheck_false_of_forall
    intro r hr
    have h := (validateLinkTitle_shape cm fm filePath r hr).1
    rcases hc with rfl | rfl <;> rw [h] <;> decide
  have h5 : hasCheck (validateMenuAndWeight fm) c = false := by
    apply hasCheck_false_of_forall
    intro r hr
    rcases validateMenuAndWeight_shape fm r hr with h | h <;>
      rcases hc with rfl | rfl <;> rw [h] <;> decide
  have h6 : hasCheck (validateOwner cm fm filePath) c = false := by
    apply hasCheck_false_of_forall
    intro r hr
    rcases validateOwner_shape cm fm filePath r hr with ⟨h, -⟩ | h <;>
      rcases hc with rfl | rfl <;> rw [h] <;> decide
  have h7 : hasCheck (validateUserQuestions cm fm filePath) c = false := by
    apply hasCheck_false_of_forall
    intro r hr
    rcases validateUserQuestions_shape cm fm filePath r hr with ⟨h, -⟩ | h | h <;>
      rcases hc with rfl | rfl <;> rw [h] <;> decide
  have h9 : hasCheck (validateRunbook cm fm filePath) c = false := by
    apply hasCheck_false_of_forall
    intro r hr
    rcases (validateRunbook_shape cm fm filePath r hr).1 with
      h | h | h | h | h | h | h | h <;> rcases hc with rfl | rfl <;> rw [h] <;> decide
  rw [h1, h2, h3, h4, h5, h6, h7, h9]
  simp

theorem timeSub_expirationNs_iff (today d e : Int) (hdt : d ≤ today)
    (hlo : -106751 ≤ e) (hhi : e ≤ 106751) :
    (timeSub today d > expirationNs e ↔ today - d > e * nsPerDay) := by
  have h1 : wrap64 (e * 24) = e * 24 := by
    unfold wrap64
    rw [Int.emod_eq_of_lt (by omega) (by omega)]
    omega
  have hwrap : expirationNs e = e * nsPerDay := by
    unfold expirationNs
    rw [h1]
    have h2 : wrap64 (e * 24 * 3600000000000) = e * 24 * 3600000000000 := by
      unfold wrap64
      have hb : e * 24 * 3600000000000 = e * 86400000000000 := by ring
      rw [hb, Int.emod_eq_of_lt (by omega) (by omega)]
      omega
    rw [h2]
    unfold nsPerDay
    ring
  rw [hwrap]
  unfold timeSub int64Max int64Min nsPerDay
  unfold nsPerDay at hwrap
  omega

/-- C5 (amended): with the default all-enabled configuration, for a document
whose `last_review_date` decodes to `d`: a future date yields
`INVALID_LAST_REVIEW_DATE` and never `REVIEW_TOO_LONG_AGO`, for every value
of `expiration_in_days`; the two findings never co-occur (if/else by
construction); for a non-future date `INVALID_LAST_REVIEW_DATE` is absent
and — provided `expiration_in_days` (default 365) lies within ±106751, below
the int64 overflow of Go's `time.Duration(expiration)*24*time.Hour` —
`REVIEW_TOO_LONG_AGO` is reported exactly when now minus the date strictly
exceeds the expiration in days (see the counterexample for the overflow
regime). -/
theorem lastReviewDate_future_and_expiry (yk : YamlKeys) (fm : FrontMatter)
    (fmString filePath : Str) (today d : Int)
    (hd : fm.lastReviewDate = some d) :
    (d > today →
      hasCheck (validateAll defaultConfigManager yk fm fmString filePath today)
        InvalidLastReviewDate = true ∧
      hasCheck (validateAll defaultConfigManager yk fm fmString filePath today)
        ReviewTooLongAgo = false) ∧
    ¬(hasCheck (validateAll defaultConfigManager yk fm fmString filePath today)
        InvalidLastReviewDate = true ∧
      hasCheck (validateAll defaultConfigManager yk fm fmString filePath today)
        ReviewTooLongAgo = true) ∧
    (d ≤ today →
      hasCheck (validateAll defaultConfigManager yk fm fmString filePath today)
        InvalidLastReviewDate = false ∧
      (-106751 ≤ fm.expirationInDays.getD 365 → fm.expirationInDays.getD 365 ≤ 106751 →
        (hasCheck (validateAll defaultConfigManager yk fm fmString filePath today)
            ReviewTooLongAgo = true ↔
          today - d > fm.expirationInDays.getD 365 * nsPerDay))) := by
  have hIL := validateAll_hasCheck_to_lastReview defaultConfigManager yk fm fmString
    filePath today InvalidLastReviewDate (Or.inl rfl)
  have hRT := validateAll_hasCheck_to_lastReview defaultConfigManager yk fm fmString
    filePath today ReviewTooLongAgo (Or.inr rfl)
  rw [hIL, hRT]
  unfold validateLastReviewDate
  rw [hd]
  dsimp only
  have hskipRT : shouldSkipCheck defaultConfigManager filePath ReviewTooLongAgo = false :=
    rfl
  rw [hskipRT]
  simp only [Bool.not_false, if_true]
  by_cases hfut : d > today
  · rw [if_pos hfut]
    refine ⟨fun _ => ⟨by simp [hasCheck_cons, hasCheck_nil] <;> decide,
      by simp [hasCheck_cons, hasCheck_nil] <;> decide⟩, ?_, fun hle => absurd hfut (by omega)⟩
    rintro ⟨-, hbad⟩
    simp [hasCheck_cons, hasCheck_nil] at hbad <;> exact absurd hbad (by decide)
  · rw [if_neg hfut]
    have hle : d ≤ today := by omega
    by_cases hexp : timeSub today d > expirationNs (fm.expirationInDays.getD 365)
    · rw [if_pos hexp]
      refine ⟨fun h => absurd h (by omega), ?_,
        fun _ => ⟨by simp [hasCheck_cons, hasCheck_nil] <;> decide, fun hlo hhi => ?_⟩⟩
      · rintro ⟨hbad, -⟩
        simp [hasCheck_cons, hasCheck_nil] at hbad <;> exact absurd hbad (by decide)
      · constructor
        · intro _
          exact (timeSub_expirationNs_iff today d _ hle hlo hhi).mp hexp
        · intro _
          simp [hasCheck_cons, hasCheck_nil]
    · rw [if_neg hexp]
      refine ⟨fun h => absurd h (by omega), ?_,
        fun _ => ⟨by simp [hasCheck_cons, hasCheck_nil] <;> decide, fun hlo hhi => ?_⟩⟩
      · rintro ⟨hbad, -⟩
        simp [hasCheck_cons, hasCheck_nil] at hbad <;> exact absurd hbad (by decide)
      · constructor
        · intro hbad
          simp [hasCheck_cons, hasCheck_nil] at hbad
        · intro hgt
          exact absurd ((timeSub_expirationNs_iff today d _ hle hlo hhi).mpr hgt) hexp


/-- Witness for the amended C5. -/
theorem lastReviewDate_future_and_expiry_witness :
    ((0 : Int) > 31622400000000000 →
      hasCheck (validateAll defaultConfigManager (fun _ => some [])
        { lastReviewDate := some 0 } [] "docs/a.md".data 31622400000000000)
        InvalidLastReviewDate = true ∧
      hasCheck (validateAll defaultConfigManager (fun _ => some [])
        { lastReviewDate := some 0 } [] "docs/a.md".data 31622400000000000)
        ReviewTooLongAgo = false) ∧
    ¬(hasCheck (validateAll defaultConfigManager (fun _ => some [])
        { lastReviewDate := some 0 } [] "docs/a.md".data 31622400000000000)
        InvalidLastReviewDate = true ∧
      hasCheck (validateAll defaultConfigManager (fun _ => some [])
        { lastReviewDate := some 0 } [] "docs/a.md".data 31622400000000000)
        ReviewTooLongAgo = true) ∧
    ((0 : Int) ≤ 31622400000000000 →
      hasCheck (validateAll defaultConfigManager (fun _ => some [])
        { lastReviewDate := some 0 } [] "docs/a.md".data 31622400000000000)
        InvalidLastReviewDate = false ∧
      (-106751 ≤ (({ lastReviewDate := some 0 } : FrontMatter).expirationInDays.getD 365) →
       (({ lastReviewDate := some 0 } : FrontMatter).expirationInDays.getD 365) ≤ 106751 →
        (hasCheck (validateAll defaultConfigManager (fun _ => some [])
            { lastReviewDate := some 0 } [] "docs/a.md".data 31622400000000000)
            ReviewTooLongAgo = true ↔
          (31622400000000000 : Int) - 0 >
            (({ lastReviewDate := some 0 } : FrontMatter).expirationInDays.getD 365) *
              nsPerDay))) :=
  lastReviewDate_future_and_expiry (fun _ => some []) { lastReviewDate := some 0 } []
    "docs/a.md".data 31622400000000000 0 rfl

/-- C5 counterexample: with `expiration_in_days: 106752` the duration
multiplication `time.Duration(106752)*24*time.Hour` overflows int64 to a
negative duration, so the code reports `REVIEW_TOO_LONG_AGO` for a review
dated one day ago even though one day does not exceed 106752 days —
refuting the claim's unconditional "exactly when now minus the date exceeds
expiration_in_days days". -/
theorem reviewTooLongAgo_overflow_counterexample :
    hasCheck (validateAll defaultConfigManager (fun _ => some [])
      { lastReviewDate := some (-86400000000000), expirationInDays := some 106752 }
      [] "docs/a.md".data 0) ReviewTooLongAgo = true ∧
    ¬((0 : Int) - (-86400000000000) > 106752 * nsPerDay) := by
  constructor
  · decide
  · decide


/-! ## Claim C7 -/

theorem validateAll_hasCheck_to_description (cm : ConfigMgr) (yk : YamlKeys)
    (fm : FrontMatter) (fmString filePath : Str) (today : Int) (c : String)
    (hc : c = NoDescription ∨ c = InvalidDescription ∨ c = ShortDescription ∨
          c = LongDescription ∨ c = NoFullStopDescription) :
    hasCheck (validateAll cm yk fm fmString filePath today) c =
      hasCheck (validateDescription cm fm filePath) c := by
  unfold validateAll
  simp only [hasCheck_append]
  have h1 : hasCheck (validateUnknownAttributes yk fmString) c = false := by
    apply hasCheck_false_of_forall
    intro r hr
    have h := validateUnknownAttributes_shape yk fmString r hr
    rcases hc with rfl | rfl | rfl | rfl | rfl <;> rw [h] <;> decide
  have h2 : hasCheck (validateTitle fm) c = false := by
    apply hasCheck_false_of_forall
    intro r hr
    rcases validateTitle_shape fm r hr with h | h | h <;>
      rcases hc with rfl | rfl | rfl | rfl | rfl <;> rw [h] <;> decide
  have h4 : hasCheck (validateLinkTitle cm fm filePath) c = false := by
    apply hasCheck_false_of_forall
    intro r hr
    have h := (validateLinkTitle_shape cm fm filePath r hr).1
    rcases hc with rfl | rfl | rfl | rfl | rfl <;> rw [h] <;> decide
  have h5 : hasCheck (validateMenuAndWeight fm) c = false := by
    apply hasCheck_false_of_forall
    intro r hr
    rcases validateMenuAndWeight_shape fm r hr with h | h <;>
      rcases hc with rfl | rfl | rfl | rfl | rfl <;> rw [h] <;> decide
  have h6 : hasCheck (validateOwner cm fm filePath) c = false := by
    apply hasCheck_false_of_forall
    intro r hr
    rcases validateOwner_shape cm fm filePath r hr with ⟨h, -⟩ | h <;>
      rcases hc with rfl | rfl | rfl | rfl | rfl <;> rw [h] <;> decide
  have h7 : hasCheck (validateUserQuestions cm fm filePath) c = false := by
    apply hasCheck_false_of_forall
    intro r hr
    rcases validateUserQuestions_shape cm fm filePath r hr with ⟨h, -⟩ | h | h <;>
      rcases hc with rfl | rfl | rfl | rfl | rfl <;> rw [h] <;> decide
  have h8 : hasCheck (validateLastReviewDate cm fm filePath today) c = false := by
    apply hasCheck_false_of_forall
    intro r hr
    rcases validateLastReviewDate_shape cm fm filePath today r hr with
      ⟨h, -⟩ | h | ⟨h, -⟩ <;>
      rcases hc with rfl | rfl | rfl | rfl | rfl <;> rw [h] <;> decide
  have h9 : hasCheck (validateRunbook cm fm filePath) c = false := by
    apply hasCheck_false_of_forall
    intro r hr
    rcases (validateRunbook_shape cm fm filePath r hr).1 with
      h | h | h | h | h | h | h | h <;>
      rcases hc with rfl | rfl | rfl | rfl | rfl <;> rw [h] <;> decide
  rw [h1, h2, h4, h5, h6, h7, h8, h9]
  simp

/-- C7 (amended): the line-break test applies to the whitespace-trimmed
description.  If the trimmed description contains a newline, Validate
reports `INVALID_DESCRIPTION` and none of `SHORT_DESCRIPTION`,
`LONG_DESCRIPTION`, `NO_FULL_STOP_DESCRIPTION`; otherwise, for a non-empty
description, those three are checked independently (length < 50,
length > 300, missing trailing period) and `INVALID_DESCRIPTION` is absent.
A description whose only line breaks sit in leading/trailing whitespace is
not flagged `INVALID_DESCRIPTION` (see the counterexample). -/
theorem description_lineBreak_checks (yk : YamlKeys) (fm : FrontMatter)
    (fmString filePath : Str) (today : Int) (hne : fm.description ≠ []) :
    ('\n' ∈ trimSpace fm.description →
      hasCheck (validateAll defaultConfigManager yk fm fmString filePath today)
        InvalidDescription = true ∧
      hasCheck (validateAll defaultConfigManager yk fm fmString filePath today)
        ShortDescription = false ∧
      hasCheck (validateAll defaultConfigManager yk fm fmString filePath today)
        LongDescription = false ∧
      hasCheck (validateAll defaultConfigManager yk fm fmString filePath today)
        NoFullStopDescription = false) ∧
    ('\n' ∉ trimSpace fm.description →
      hasCheck (validateAll defaultConfigManager yk fm fmString filePath today)
        InvalidDescription = false ∧
      (hasCheck (validateAll defaultConfigManager yk fm fmString filePath today)
          ShortDescription = true ↔ fm.description.length < 50) ∧
      (hasCheck (validateAll defaultConfigManager yk fm fmString filePath today)
          LongDescription = true ↔ fm.description.length > 300) ∧
      (hasCheck (validateAll defaultConfigManager yk fm fmString filePath today)
          NoFullStopDescription = true ↔ ¬ goHasSuf fm.description ".".data = true)) := by
  have hND := validateAll_hasCheck_to_description defaultConfigManager yk fm fmString
    filePath today InvalidDescription (by tauto)
  have hSD := validateAll_hasCheck_to_description defaultConfigManager yk fm fmString
    filePath today ShortDescription (by tauto)
  have hLD := validateAll_hasCheck_to_description defaultConfigManager yk fm fmString
    filePath today LongDescription (by tauto)
  have hFS := validateAll_hasCheck_to_description defaultConfigManager yk fm fmString
    filePath today NoFullStopDescription (by tauto)
  rw [hND, hSD, hLD, hFS]
  unfold validateDescription
  rw [if_neg hne]
  have hs1 : shouldSkipCheck defaultConfigManager filePath InvalidDescription = false :=
    rfl
  have hs2 : shouldSkipCheck defaultConfigManager filePath ShortDescription = false := rfl
  have hs3 : shouldSkipCheck defaultConfigManager filePath LongDescription = false := rfl
  have hs4 : shouldSkipCheck defaultConfigManager filePath NoFullStopDescription = false :=
    rfl
  rw [hs1, hs2, hs3, hs4]
  simp only [Bool.not_false, Bool.and_true, if_true]
  by_cases hbr : '\n' ∈ trimSpace fm.description
  · have hcond : ((trimSpace fm.description).contains '\n') = true := by
      simpa [List.contains] using hbr
    rw [if_pos hcond]
    refine ⟨fun _ => ?_, fun hnbr => absurd hbr hnbr⟩
    refine ⟨?_, ?_, ?_, ?_⟩ <;>
      simp [hasCheck_cons, hasCheck_nil, InvalidDescription, ShortDescription,
        LongDescription, NoFullStopDescription]
  · have hcond : ¬(((trimSpace fm.description).contains '\n') = true) := by
      simp [List.contains]
      exact hbr
    rw [if_neg hcond]
    refine ⟨fun h => absurd h hbr, fun _ => ?_⟩
    by_cases hA : fm.description.length < 50 <;>
      by_cases hB : fm.description.length > 300 <;>
        by_cases hC : goHasSuf fm.description ".".data = true <;>
          simp [hA, hB, hC, hasCheck_append, hasCheck_cons, hasCheck_nil,
            InvalidDescription, ShortDescription, LongDescription, NoFullStopDescription]

/-- Witness for the amended C7. -/
theorem description_lineBreak_checks_witness :
    ('\n' ∈ trimSpace ("a\nb".data : Str) →
      hasCheck (validateAll defaultConfigManager (fun _ => some [])
        { description := "a\nb".data } [] "docs/a.md".data 0) InvalidDescription = true ∧
      hasCheck (validateAll defaultConfigManager (fun _ => some [])
        { description := "a\nb".data } [] "docs/a.md".data 0) ShortDescription = false ∧
      hasCheck (validateAll defaultConfigManager (fun _ => some [])
        { description := "a\nb".data } [] "docs/a.md".data 0) LongDescription = false ∧
      hasCheck (validateAll defaultConfigManager (fun _ => some [])
        { description := "a\nb".data } [] "docs/a.md".data 0)
        NoFullStopDescription = false) ∧
    ('\n' ∉ trimSpace ("a\nb".data : Str) →
      hasCheck (validateAll defaultConfigManager (fun _ => some [])
        { description := "a\nb".data } [] "docs/a.md".data 0) InvalidDescription = false ∧
      (hasCheck (validateAll defaultConfigManager (fun _ => some [])
        { description := "a\nb".data } [] "docs/a.md".data 0) ShortDescription = true ↔
        (({ description := "a\nb".data } : FrontMatter)).description.length < 50) ∧
      (hasCheck (validateAll defaultConfigManager (fun _ => some [])
        { description := "a\nb".data } [] "docs/a.md".data 0) LongDescription = true ↔
        (({ description := "a\nb".data } : FrontMatter)).description.length > 300) ∧
      (hasCheck (validateAll defaultConfigManager (fun _ => some [])
        { description := "a\nb".data } [] "docs/a.md".data 0)
          NoFullStopDescription = true ↔
        ¬ goHasSuf (({ description := "a\nb".data } : FrontMatter)).description
            ".".data = true)) :=
  description_lineBreak_checks (fun _ => some []) { description := "a\nb".data } []
    "docs/a.md".data 0 (by decide)

/-- C7 counterexample: the description "hi\n" contains a line-break
character, yet Validate does not report `INVALID_DESCRIPTION` for it (the
code trims surrounding whitespace before looking for line breaks) and
reports `SHORT_DESCRIPTION` instead — refuting the claim as stated. -/
theorem description_lineBreak_counterexample :
    ('\n' ∈ ("hi\n".data : Str)) ∧
    hasCheck (validateAll defaultConfigManager (fun _ => some [])
      { description := "hi\n".data } [] "docs/a.md".data 0) InvalidDescription = false ∧
    hasCheck (validateAll defaultConfigManager (fun _ => some [])
      { description := "hi\n".data } [] "docs/a.md".data 0) ShortDescription = true := by
  refine ⟨by decide, by decide, by decide⟩


/-! ## Claim C8 -/

theorem runbookVariablesLoop_seen (filePath : Str) (n : Str) (hne : n ≠ []) :
    ∀ (vs : List RunbookVariable), (∃ v ∈ vs, v.name = n) →
      ∀ (i : Nat) (seen : List Str), n ∈ seen →
        hasCheck (runbookVariablesLoop defaultConfigManager filePath vs i seen)
          InvalidRunbookVariableName = true := by
  intro vs
  induction vs with
  | nil =>
    rintro ⟨v, hv, -⟩
    simp at hv
  | cons v rest ih =>
    rintro ⟨w, hw, hwn⟩ i seen hseen
    unfold runbookVariablesLoop
    by_cases hvn : v.name = []
    · rw [if_pos hvn, hasCheck_append]
      have hw' : ∃ u ∈ rest, u.name = n := by
        rcases List.mem_cons.mp hw with rfl | h
        · exact absurd (hwn.symm.trans hvn) hne
        · exact ⟨w, h, hwn⟩
      rw [ih hw' (i + 1) seen hseen]
      simp
    · rw [if_neg hvn]
      by_cases hdup : seen.contains v.name = true
      · have hmem : v.name ∈ seen := by simpa [List.contains] using hdup
        have hskip : shouldSkipCheck defaultConfigManager filePath
            InvalidRunbookVariableName = false := rfl
        simp [hasCheck_append, hasCheck_cons, hmem, hskip]
      · have hvne : v.name ≠ n := by
          intro he
          exact hdup (by rw [he]; simpa [List.contains] using hseen)
        have hw' : ∃ u ∈ rest, u.name = n := by
          rcases List.mem_cons.mp hw with rfl | h
          · exact absurd hwn hvne
          · exact ⟨w, h, hwn⟩
        have hrec := ih hw' (i + 1) (v.name :: seen) (List.mem_cons_of_mem _ hseen)
        simp [hasCheck_append, hrec]

theorem runbookVariablesLoop_dup (filePath : Str) (v₁ v₂ : RunbookVariable)
    (hnm : v₁.name = v₂.name) (hne : v₂.name ≠ []) :
    ∀ (l₁ l₂ l₃ : List RunbookVariable) (i : Nat) (seen : List Str),
      hasCheck (runbookVariablesLoop defaultConfigManager filePath
        (l₁ ++ v₁ :: (l₂ ++ v₂ :: l₃)) i seen) InvalidRunbookVariableName = true := by
  intro l₁
  induction l₁ with
  | nil =>
    intro l₂ l₃ i seen
    simp only [List.nil_append]
    unfold runbookVariablesLoop
    have hv1 : v₁.name ≠ [] := by
      rw [hnm]
      exact hne
    rw [if_neg hv1]
    have hrec := runbookVariablesLoop_seen filePath v₂.name hne (l₂ ++ v₂ :: l₃)
      ⟨v₂, by simp, rfl⟩ (i + 1) (v₁.name :: seen) (by simp [hnm])
    simp [hasCheck_append, hrec]
  | cons u l₁ ih =>
    intro l₂ l₃ i seen
    simp only [List.cons_append]
    unfold runbookVariablesLoop
    by_cases hun : u.name = []
    · rw [if_pos hun]
      simp [hasCheck_append, ih l₂ l₃ (i + 1) seen]
    · rw [if_neg hun]
      simp [hasCheck_append, ih l₂ l₃ (i + 1) (u.name :: seen)]

/-- C8: a runbook-layout document whose Runbook declares two Variables with
the same non-empty name always yields at least one
`INVALID_RUNBOOK_VARIABLE_NAME` finding, even when each name individually
matches `^[A-Z_]+$` (the two-variables hypothesis is the list decomposition
`vars = l₁ ++ v₁ :: l₂ ++ v₂ :: l₃`). -/
theorem duplicate_variable_name_reported (yk : YamlKeys) (fm : FrontMatter)
    (fmString filePath : Str) (today : Int) (rb : Runbook)
    (l₁ l₂ l₃ : List RunbookVariable) (v₁ v₂ : RunbookVariable)
    (hlayout : fm.layout = "runbook".data) (hrb : fm.runbook = some rb)
    (hvars : rb.vars = l₁ ++ v₁ :: (l₂ ++ v₂ :: l₃))
    (hnm : v₁.name = v₂.name) (hne : v₂.name ≠ []) :
    hasCheck (validateAll defaultConfigManager yk fm fmString filePath today)
      InvalidRunbookVariableName = true := by
  unfold validateAll
  simp only [hasCheck_append, Bool.or_eq_true]
  refine Or.inr ?_
  unfold validateRunbook
  rw [if_pos hlayout, hrb]
  dsimp only
  simp only [hasCheck_append, Bool.or_eq_true]
  refine Or.inr (Or.inl (Or.inl ?_))
  unfold validateRunbookVariables
  rw [hvars, if_neg (by simp)]
  exact runbookVariablesLoop_dup filePath v₁ v₂ hnm hne l₁ l₂ l₃ 0 []

/-- Witness for C8: two Variables both named INSTALLATION. -/
theorem duplicate_variable_name_reported_witness :
    hasCheck (validateAll defaultConfigManager (fun _ => some [])
      { layout := "runbook".data, tocHide := true,
        runbook := some { vars := [{ name := "INSTALLATION".data },
                                   { name := "INSTALLATION".data }] } }
      [] "docs/a.md".data 0) InvalidRunbookVariableName = true :=
  duplicate_variable_name_reported (fun _ => some [])
    { layout := "runbook".data, tocHide := true,
      runbook := some { vars := [{ name := "INSTALLATION".data },
                                 { name := "INSTALLATION".data }] } }
    [] "docs/a.md".data 0
    { vars := [{ name := "INSTALLATION".data }, { name := "INSTALLATION".data }] }
    [] [] [] { name := "INSTALLATION".data } { name := "INSTALLATION".data }
    rfl rfl rfl rfl (by decide)


/-! ## Claim C9 -/

theorem validateLastReviewDate_filter_eq (cm : ConfigMgr) (fm : FrontMatter)
    (filePath : Str) (t₁ t₂ : Int) :
    (validateLastReviewDate cm fm filePath t₁).filter
      (fun r => !decide (r.check = InvalidLastReviewDate) &&
                !decide (r.check = ReviewTooLongAgo)) =
    (validateLastReviewDate cm fm filePath t₂).filter
      (fun r => !decide (r.check = InvalidLastReviewDate) &&
                !decide (r.check = ReviewTooLongAgo)) := by
  rcases hd : fm.lastReviewDate with _ | d
  · unfold validateLastReviewDate
    rw [hd]
  · have key : ∀ t : Int, (validateLastReviewDate cm fm filePath t).filter
        (fun r => !decide (r.check = InvalidLastReviewDate) &&
                  !decide (r.check = ReviewTooLongAgo)) = [] := by
      intro t
      unfold validateLastReviewDate
      rw [hd]
      dsimp only
      split_ifs <;> rfl
    rw [key t₁, key t₂]

/-- C9 (amended): `Validate` is a pure function of the document path, raw
text, configuration, and the current time.  The current time influences the
result only through the `INVALID_LAST_REVIEW_DATE` / `REVIEW_TOO_LONG_AGO`
findings: the frontmatter line count and every other finding are identical
across calls at different times (so the claim's input list is incomplete —
see the counterexample — but all other determinism holds). -/
theorem validate_pure_modulo_clock (cm : ConfigMgr) (yamlFM : YamlFM)
    (yamlKeys : YamlKeys) (content filePath : Str) (t₁ t₂ : Int) :
    (validateFile cm yamlFM yamlKeys content filePath t₁).numFrontMatterLines =
      (validateFile cm yamlFM yamlKeys content filePath t₂).numFrontMatterLines ∧
    (validateFile cm yamlFM yamlKeys content filePath t₁).checks.filter
      (fun r => !decide (r.check = InvalidLastReviewDate) &&
                !decide (r.check = ReviewTooLongAgo)) =
    (validateFile cm yamlFM yamlKeys content filePath t₂).checks.filter
      (fun r => !decide (r.check = InvalidLastReviewDate) &&
                !decide (r.check = ReviewTooLongAgo)) := by
  unfold validateFile
  by_cases h1 : (!goHasSuf content "\n".data) = true
  · simp only [if_pos h1]
    constructor <;> trivial
  · simp only [if_neg h1]
    rcases hp : parseFrontMatter yamlFM content with _ | ⟨fm, fmString, n⟩ <;> dsimp only
    · exact ⟨rfl, rfl⟩
    · refine ⟨rfl, ?_⟩
      unfold validateAll
      simp only [List.filter_append]
      rw [validateLastReviewDate_filter_eq cm fm filePath t₁ t₂]

/-- Witness for the amended C9 at a concrete document and two times. -/
theorem validate_pure_modulo_clock_witness :
    (validateFile defaultConfigManager (fun _ => some { lastReviewDate := some 0 })
      (fun _ => some []) "---\nx: y\n---\n".data "docs/a.md".data
      0).numFrontMatterLines =
      (validateFile defaultConfigManager (fun _ => some { lastReviewDate := some 0 })
        (fun _ => some []) "---\nx: y\n---\n".data "docs/a.md".data
        31622400000000000).numFrontMatterLines ∧
    (validateFile defaultConfigManager (fun _ => some { lastReviewDate := some 0 })
      (fun _ => some []) "---\nx: y\n---\n".data "docs/a.md".data 0).checks.filter
      (fun r => !decide (r.check = InvalidLastReviewDate) &&
                !decide (r.check = ReviewTooLongAgo)) =
    (validateFile defaultConfigManager (fun _ => some { lastReviewDate := some 0 })
      (fun _ => some []) "---\nx: y\n---\n".data "docs/a.md".data
      31622400000000000).checks.filter
      (fun r => !decide (r.check = InvalidLastReviewDate) &&
                !decide (r.check = ReviewTooLongAgo)) :=
  validate_pure_modulo_clock defaultConfigManager
    (fun _ => some { lastReviewDate := some 0 }) (fun _ => some [])
    "---\nx: y\n---\n".data "docs/a.md".data 0 31622400000000000

/-- C9 counterexample: identical path, raw text and configuration, but two
different `time.Now()` readings (366 days apart) give different results —
one reports `REVIEW_TOO_LONG_AGO`, the other does not — so `Validate` is
not a function of the claimed inputs alone: it also reads the clock
(`validateLastReviewDate`, `time.Now()`). -/
theorem validate_time_dependence_counterexample :
    hasCheck (validateAll defaultConfigManager (fun _ => some [])
      { lastReviewDate := some 0 } [] "docs/a.md".data 0) ReviewTooLongAgo = false ∧
    hasCheck (validateAll defaultConfigManager (fun _ => some [])
      { lastReviewDate := some 0 } [] "docs/a.md".data 31622400000000000)
      ReviewTooLongAgo = true :=
  ⟨by decide, by decide⟩

/-! ## Claim C10 -/

theorem undefinedVarMsg_inj {t t' link : Str}
    (h : undefinedVarMsg t link = undefinedVarMsg t' link) : t = t' := by
  unfold undefinedVarMsg at h
  exact List.append_cancel_left (List.append_cancel_right (List.append_cancel_right h))

/-- C10 (amended): in a dashboard link, a token `$NAME` (a maximal nonempty
run of uppercase letters and underscores after `$`) produces an
undefined-variable `INVALID_RUNBOOK_DASHBOARD_LINK` finding exactly when no
Variable entry has that exact name; the defined set is every Variable with a
non-empty name, regardless of the uppercase-format rule.  (But tokens are
only the uppercase runs: a declared lowercase-containing name such as
`MY_var` does not make the extracted prefix token `MY_` defined, so such a
link is still flagged — see the counterexample, which refutes the claim's
final clause.) -/
theorem dashboardLink_undefined_token_iff (rb : Runbook) (link filePath t : Str) :
    (({ check := InvalidRunbookDashboardLink,
        value := FMValue.str (undefinedVarMsg t link) } : CheckResult) ∈
      validateRunbookDashboardLink defaultConfigManager link (dashboardVarNames rb)
        filePath) ↔
    (t ∈ extractVariables link ∧ (dashboardVarNames rb).contains t = false) := by
  unfold validateRunbookDashboardLink
  have hskip : shouldSkipCheck defaultConfigManager filePath
      InvalidRunbookDashboardLink = false := rfl
  rw [hskip]
  simp only [Bool.not_false, Bool.and_true, List.mem_append]
  constructor
  · rintro (hmem | hmem)
    · obtain ⟨t', ht', heq⟩ := List.mem_filterMap.mp hmem
      split_ifs at heq with hc
      · injection heq with heq'
        have hval : undefinedVarMsg t' link = undefinedVarMsg t link := by
          have := congrArg CheckResult.value heq'
          simpa [undefinedVarMsg] using this
        have htt : t' = t := undefinedVarMsg_inj hval
        subst htt
        exact ⟨ht', by simpa using hc⟩
    · exfalso
      rcases List.mem_ite_nil_right.mp hmem with ⟨-, habs⟩
      simp [undefinedVarMsg] at habs
  · rintro ⟨ht, hnc⟩
    refine Or.inl (List.mem_filterMap.mpr ⟨t, ht, ?_⟩)
    rw [if_pos (by simpa using hnc)]
    simp [undefinedVarMsg]

/-- Witness for the amended C10. -/
theorem dashboardLink_undefined_token_iff_witness :
    (({ check := InvalidRunbookDashboardLink,
        value := FMValue.str (undefinedVarMsg "MY_".data "https://h/$MY_var".data) } :
        CheckResult) ∈
      validateRunbookDashboardLink defaultConfigManager "https://h/$MY_var".data
        (dashboardVarNames { vars := [{ name := "MY_var".data }] })
        "docs/a.md".data) ↔
    ("MY_".data ∈ extractVariables ("https://h/$MY_var".data : Str) ∧
      (dashboardVarNames { vars := [{ name := "MY_var".data }] }).contains
        "MY_".data = false) :=
  dashboardLink_undefined_token_iff { vars := [{ name := "MY_var".data }] }
    "https://h/$MY_var".data "docs/a.md".data "MY_".data

/-- C10 counterexample: the Variable `MY_var` is declared (lowercase-
containing name) and the dashboard link references it as `$MY_var`; the
extracted token is the uppercase prefix `MY_`, which is undefined, so the
dashboard IS flagged `INVALID_RUNBOOK_DASHBOARD_LINK` for an undefined
token — refuting the claim's final clause. -/
theorem dashboard_lowercase_variable_counterexample :
    validateRunbookDashboards defaultConfigManager
      { vars := [{ name := "MY_var".data }],
        dashboards := [{ name := "d".data, link := "https://h/$MY_var".data }] }
      "docs/a.md".data =
    [{ check := InvalidRunbookDashboardLink,
       value := FMValue.str
         ("Undefined variable $MY_ in link: https://h/$MY_var".data) }] := by
  decide


end FMV
